import Mathlib

/-!
# Conflict navigation and viewport engine (`conflict.go`)

A shallow embedding of `src/conflict.go` and the properties of its operations.

Modelling conventions.

* Go `int` values are embedded as `Int`.  The fields hold line numbers and peek
  counts that move by one per key press, far from the 64-bit bounds.
* A `*Conflict` handed to an operation points into the package-level slice
  `conflicts`; it is embedded as an index into that slice.
* A run-time panic (index or slice bounds out of range) is an explicit `Fault`.
* `gocui` is an external library.  `g.Update(f)` hands `f` to the GUI main loop;
  following the single-threaded event model, `f` is run where `Update` is called
  and the `error` it returns is dropped, as `Update` itself returns nothing.
  A view is the `Title` last assigned and the writes made since the last `Clear`.
-/

namespace Fac

/-! ## Data model -/

/-- The `Conflict` struct of `conflict.go`, field for field. -/
structure Conflict where
  Choice : Int
  FileName : String
  AbsolutePath : String
  Start : Int
  Middle : Int
  End : Int
  CurrentLines : List String
  ForeignLines : List String
  ColoredCurrentLines : List String
  ColoredForeignLines : List String
  CurrentName : String
  ForeignName : String
  topPeek : Int
  bottomPeek : Int
  displayDiff : Bool
  deriving DecidableEq, Repr

/-- The constant `Local`. -/
def Local : Int := 1
/-- The constant `Incoming`. -/
def Incoming : Int := 2
/-- The constant `Up`. -/
def Up : Int := 3
/-- The constant `Down`. -/
def Down : Int := 4

/-- An argument passed to one of the variadic colour formatters. -/
inductive Arg where
  | str (s : String)
  | int (n : Int)
  deriving DecidableEq, Repr

/-- One write made on a `gocui` view since it was last cleared. -/
inductive Write where
  /-- Text sent with `fmt.Fprintf(v, ...)`, already formatted. -/
  | fprintf (text : String)
  /-- The call `printLines(v, lines)`. -/
  | printLines (lines : List String)
  /-- The call `printHelp(v)`. -/
  | printHelp
  deriving DecidableEq, Repr

/-- The part of a `gocui.View` the program touches. -/
structure View where
  Title : String
  writes : List Write
  deriving DecidableEq, Repr

/-- The ways an operation can stop without a result. -/
inductive Fault where
  /-- Go panic: index out of range. -/
  | indexOutOfRange
  /-- Go panic: slice bounds out of range. -/
  | sliceBounds
  /-- The scan loop of `nextConflict` did not finish within the given fuel. -/
  | outOfFuel
  deriving DecidableEq, Repr

/-- Result of running an operation: a value, or a fault. -/
inductive Res (α : Type) where
  | ok (a : α)
  | fault (f : Fault)
  deriving DecidableEq, Repr

/-- Sequencing of fallible steps. -/
def Res.bind {α β : Type} (r : Res α) (k : α → Res β) : Res β :=
  match r with
  | .ok a => k a
  | .fault f => .fault f

/-- Declarations of the package that live outside `conflict.go`: the view names,
the colour helpers, the diff collaborator and the file line index. -/
structure Env where
  /-- Name of the conflict-list view (constant `Panel`). -/
  Panel : String
  /-- Name of the local-side view (constant `Current`). -/
  Current : String
  /-- Name of the incoming-side view (constant `Foreign`). -/
  Foreign : String
  /-- The style constant `Regular`. -/
  Regular : Int
  /-- The formatter `Black(style, format, args...)`. -/
  Black : Int → String → List Arg → String
  /-- The formatter `Green(style, format, args...)`. -/
  Green : Int → String → List Arg → String
  /-- The formatter `Red(style, format, args...)`. -/
  Red : Int → String → List Arg → String
  /-- Modelled from the spec: the diff collaborator behind `c.diff()`, which
  "given currentLines and foreignLines, returns an ordered sequence of
  display-ready lines". -/
  diff : List String → List String → List String
  /-- The map `allFileLines`, as key/value pairs. -/
  allFileLines : List (String × List String)

/-- The package-level variables and the GUI the operations act on. -/
structure State where
  /-- The slice `conflicts`. -/
  conflicts : List Conflict
  /-- The cursor `cur`. -/
  cur : Int
  /-- The variable `conflictCount`. -/
  conflictCount : Int
  /-- The views of the `gocui.Gui`, by name. -/
  views : List (String × View)
  /-- Modelled from the spec: `globalQuit(g)` is not in `conflict.go`;
  "termination is signaled as a terminal event to the surrounding process".
  This counts the signals sent. -/
  quits : Nat
  deriving DecidableEq, Repr

/-! ## Helpers for Go slices, maps and views -/

/-- The Go map read `allFileLines[path]`; a missing key gives the nil slice. -/
def Env.fileLines (env : Env) (path : String) : List String :=
  match env.allFileLines.lookup path with
  | some ls => ls
  | none => []

/-- The Go slice expression `lines[lo:hi]` on a slice whose capacity is its
length: it panics unless `0 ≤ lo ≤ hi ≤ len(lines)`. -/
def goSlice (lines : List String) (lo hi : Int) : Res (List String) :=
  if 0 ≤ lo ∧ lo ≤ hi ∧ hi ≤ (lines.length : Int) then
    .ok ((lines.drop lo.toNat).take (hi.toNat - lo.toNat))
  else
    .fault .sliceBounds

/-- The Go index expression `conflicts[i]` for an `int` index. -/
def goIndex (cs : List Conflict) (i : Int) : Res Conflict :=
  if 0 ≤ i then
    match cs[i.toNat]? with
    | some c => .ok c
    | none => .fault .indexOutOfRange
  else
    .fault .indexOutOfRange

/-- The call `g.View(name)`: the view, or `none` for the error `ErrUnknownView`. -/
def State.view (st : State) (name : String) : Option View :=
  st.views.lookup name

/-- Mutation through the `*View` obtained for `name`. -/
def State.modifyView (st : State) (name : String) (f : View → View) : State :=
  { st with views := st.views.map (fun p => (p.1, if p.1 = name then f p.2 else p.2)) }

/-- Assignment through the `*Conflict` pointing at `conflicts[i]`. -/
def State.setConflict (st : State) (i : Nat) (c : Conflict) : State :=
  { st with conflicts := st.conflicts.set i c }

/-- The method `v.Clear()`. -/
def View.Clear (v : View) : View := { v with writes := [] }

/-- Appending one write to a view. -/
def View.write (v : View) (w : Write) : View := { v with writes := v.writes ++ [w] }

/-! ## The operations of `conflict.go` -/

/-- The method `isEqual`: same file name and same start line. -/
def Conflict.isEqual (c c2 : Conflict) : Bool :=
  c.FileName == c2.FileName && c.Start == c2.Start

/-- The method `toggleDiff`. -/
def Conflict.toggleDiff (c : Conflict) : Conflict :=
  { c with displayDiff := !c.displayDiff }

/-- The loop `for _, l := range s { padding = append(padding, Black(Regular, l)) }`,
starting from the nil slice. -/
def stylePadding (env : Env) (s : List String) : List String :=
  s.foldl (fun padding l => padding ++ [env.Black env.Regular l []]) []

/-- First clamp of `getPaddingLines`, on `topPeek`, with `start = c.Start - 1`. -/
def Conflict.clampTop (c : Conflict) : Conflict :=
  let start := c.Start - 1
  if c.topPeek ≥ start then { c with topPeek := start }
  else if c.topPeek < 0 then { c with topPeek := 0 }
  else c

/-- Second clamp of `getPaddingLines`, on `bottomPeek`, for a file of `len` lines. -/
def Conflict.clampBottom (c : Conflict) (len : Int) : Conflict :=
  if c.bottomPeek ≥ len - c.End then { c with bottomPeek := len - c.End }
  else if c.bottomPeek < 0 then { c with bottomPeek := 0 }
  else c

/-- The method `getPaddingLines`: the conflict as it is left by the call, then
`topPadding` and `bottomPadding`. -/
def Conflict.getPaddingLines (env : Env) (c : Conflict) :
    Res (Conflict × List String × List String) :=
  let lines := env.fileLines c.AbsolutePath
  let start := c.Start - 1
  let stop := c.End
  let c := c.clampTop
  (goSlice lines (start - c.topPeek) start).bind fun above =>
  let topPadding := stylePadding env above
  let c := c.clampBottom lines.length
  (goSlice lines stop (stop + c.bottomPeek)).bind fun below =>
  let bottomPadding := stylePadding env below
  .ok (c, topPadding, bottomPadding)

/-- One pass of the loop over `conflicts` in `Select`: the row written for
`conflict` at position `idx` while `c` is being rendered. -/
def listRow (env : Env) (c : Conflict) (idx : Nat) (conflict : Conflict) : Write :=
  let out :=
    if conflict.Choice ≠ 0 then
      env.Green env.Regular "✅  %s:%d" [.str conflict.FileName, .int conflict.Start]
    else
      env.Red env.Regular "%d. %s:%d"
        [.int ((idx : Int) + 1), .str conflict.FileName, .int conflict.Start]
  if conflict.isEqual c then .fprintf (out ++ " <-\n") else .fprintf (out ++ "\n")

/-- What the first `g.Update` function of `Select` does to the list view. -/
def listPanelView (env : Env) (conflicts : List Conflict) (c : Conflict) (showHelp : Bool)
    (v : View) : View :=
  let v := v.Clear
  let v := conflicts.enum.foldl (fun v p => v.write (listRow env c p.1 p.2)) v
  if showHelp then v.write .printHelp else v

/-- The first `g.Update` function of `Select`, for the conflict at index `i`. -/
def selectList (env : Env) (st : State) (c : Conflict) (showHelp : Bool) : State :=
  match st.view env.Panel with
  | none => st
  | some _ => st.modifyView env.Panel (listPanelView env st.conflicts c showHelp)

/-- The three `printLines` calls that follow `v.Clear()` on a content view. -/
def panelBody (top body bottom : List String) (v : View) : View :=
  ((v.Clear.write (.printLines top)).write (.printLines body)).write (.printLines bottom)

/-- The lines shown between the paddings of the local-side view. -/
def currentBody (env : Env) (c : Conflict) : List String :=
  if c.displayDiff then env.diff c.CurrentLines c.ForeignLines else c.ColoredCurrentLines

/-- The second `g.Update` function of `Select`, for the conflict at index `i`. -/
def selectPanels (env : Env) (st : State) (i : Nat) : Res State :=
  match st.conflicts[i]? with
  | none => .fault .indexOutOfRange
  | some c =>
    match st.view env.Current with
    | none => .ok st
    | some _ =>
      let st := st.modifyView env.Current
        (fun v => { v with Title := c.CurrentName ++ " (Current Change) " })
      (c.getPaddingLines env).bind fun r =>
      let c := r.1
      let st := st.setConflict i c
      let st := st.modifyView env.Current (panelBody r.2.1 (currentBody env c) r.2.2)
      match st.view env.Foreign with
      | none => .ok st
      | some _ =>
        let st := st.modifyView env.Foreign
          (fun v => { v with Title := c.ForeignName ++ " (Incoming Change) " })
        (c.getPaddingLines env).bind fun r =>
        let c := r.1
        let st := st.setConflict i c
        .ok (st.modifyView env.Foreign (panelBody r.2.1 c.ColoredForeignLines r.2.2))

/-- The method `Select`, called on the conflict at index `i`. -/
def Select (env : Env) (st : State) (i : Nat) (showHelp : Bool) : Res State :=
  match st.conflicts[i]? with
  | none => .fault .indexOutOfRange
  | some c => selectPanels env (selectList env st c showHelp) i

/-- Modelled from the spec: `globalQuit(g)` is called by `nextConflict` but is not
defined in `conflict.go`; it signals session termination to the surrounding
process and returns. -/
def globalQuit (st : State) : State := { st with quits := st.quits + 1 }

/-- The loop `for originalCur != cur { cur++; if cur >= conflictCount { cur = 0 } }`
of `nextConflict`, with a bound on the number of passes. -/
def scanLoop : Nat → Int → Int → Int → Res Int
  | 0, originalCur, cur, _ =>
    if originalCur ≠ cur then .fault .outOfFuel else .ok cur
  | fuel + 1, originalCur, cur, conflictCount =>
    if originalCur ≠ cur then
      let cur := cur + 1
      let cur := if cur ≥ conflictCount then 0 else cur
      scanLoop fuel originalCur cur conflictCount
    else .ok cur

/-- The function `nextConflict`. -/
def nextConflict (env : Env) (fuel : Nat) (st : State) : Res State :=
  let originalCur := st.cur
  (scanLoop fuel originalCur st.cur st.conflictCount).bind fun cur =>
  let st := { st with cur := cur }
  let st := if originalCur = st.cur then globalQuit st else st
  (goIndex st.conflicts st.cur).bind fun _ =>
  Select env st st.cur.toNat false

/-- The method `Resolve`, called on the conflict at index `i`. -/
def Resolve (env : Env) (fuel : Nat) (st : State) (i : Nat) (version : Int) : Res State :=
  match st.conflicts[i]? with
  | none => .fault .indexOutOfRange
  | some c => nextConflict env fuel (st.setConflict i { c with Choice := version })

/-- The peek adjustment made by `scroll` before it renders; `none` is the early
`return` taken for any direction other than `Up` and `Down`. -/
def scrollPeek (c : Conflict) (direction : Int) : Option Conflict :=
  if direction = Up then
    some { c with topPeek := c.topPeek - 1, bottomPeek := c.bottomPeek + 1 }
  else if direction = Down then
    some { c with topPeek := c.topPeek + 1 }
  else
    none

/-- The function `scroll`, called with a pointer to the conflict at index `i`. -/
def scroll (env : Env) (st : State) (i : Nat) (direction : Int) : Res State :=
  match st.conflicts[i]? with
  | none => .fault .indexOutOfRange
  | some c =>
    match scrollPeek c direction with
    | none => .ok st
    | some c1 => Select env (st.setConflict i c1) i false

/-- The method `toggleDiff`, called on the conflict at index `i`. -/
def toggleDiffAt (st : State) (i : Nat) : State :=
  match st.conflicts[i]? with
  | none => st
  | some c => st.setConflict i c.toggleDiff

/-! ## Derived notions used in the statements -/

/-- The conflict as `getPaddingLines` leaves it: both peeks clamped. -/
def Conflict.clamped (env : Env) (c : Conflict) : Conflict :=
  c.clampTop.clampBottom (env.fileLines c.AbsolutePath).length

/-- The region of the conflict lies inside its file: `1 ≤ Start ≤ End ≤ len(lines)`. -/
def Conflict.InFile (env : Env) (c : Conflict) : Prop :=
  1 ≤ c.Start ∧ c.Start ≤ c.End ∧ c.End ≤ ((env.fileLines c.AbsolutePath).length : Int)

instance (env : Env) (c : Conflict) : Decidable (c.InFile env) := by
  unfold Conflict.InFile; infer_instance

/-- The styled image `Black(Regular, l)` of a file line. -/
def Env.styled (env : Env) (l : String) : String := env.Black env.Regular l []

/-- Styled images of the `topPeek` file lines just above the region. -/
def Conflict.topLines (env : Env) (c : Conflict) : List String :=
  (((env.fileLines c.AbsolutePath).drop (c.Start - 1 - c.topPeek).toNat).take
    c.topPeek.toNat).map env.styled

/-- Styled images of the `bottomPeek` file lines just below the region. -/
def Conflict.bottomLines (env : Env) (c : Conflict) : List String :=
  (((env.fileLines c.AbsolutePath).drop c.End.toNat).take c.bottomPeek.toNat).map env.styled

/-- The state `Select` produces for the conflict `c` at index `i` when neither
call of `getPaddingLines` panics: the body of `Select` with the value of
`getPaddingLines` written out. -/
def renderState (env : Env) (st : State) (i : Nat) (c : Conflict) (showHelp : Bool) : State :=
  let c1 := c.clamped env
  let s0 := selectList env st c showHelp
  match s0.view env.Current with
  | none => s0
  | some _ =>
    let s1 := ((s0.modifyView env.Current
        (fun v => { v with Title := c.CurrentName ++ " (Current Change) " })).setConflict i
        c1).modifyView env.Current
          (panelBody (c1.topLines env) (currentBody env c1) (c1.bottomLines env))
    match s1.view env.Foreign with
    | none => s1
    | some _ =>
      ((s1.modifyView env.Foreign
        (fun v => { v with Title := c1.ForeignName ++ " (Incoming Change) " })).setConflict i
        c1).modifyView env.Foreign
          (panelBody (c1.topLines env) c1.ColoredForeignLines (c1.bottomLines env))

/-- The peek adjustments of a sequence of `scroll` calls, none of them followed
by a render. -/
def scrollPeeks (c : Conflict) (directions : List Int) : Conflict :=
  directions.foldl (fun c d => (scrollPeek c d).getD c) c

/-- A sequence of `scroll` calls on the conflict at index `i`, each with its render. -/
def scrolls (env : Env) (st : State) (i : Nat) : List Int → Res State
  | [] => .ok st
  | d :: ds => (scroll env st i d).bind fun st1 => scrolls env st1 i ds

/-- The `Choice` of every conflict, in sequence order. -/
def State.choices (st : State) : List Int := st.conflicts.map (·.Choice)

/-- The cursor invariant of the navigator: the sequence is non-empty,
`conflictCount = len(conflicts)` and `0 ≤ cur < len(conflicts)`. -/
def State.CursorInRange (st : State) : Prop :=
  st.conflicts ≠ [] ∧ st.conflictCount = (st.conflicts.length : Int) ∧
    0 ≤ st.cur ∧ st.cur < (st.conflicts.length : Int)

instance (st : State) : Decidable st.CursorInRange := by
  unfold State.CursorInRange; infer_instance

/-- The state in which the conflict at each index `k` has `Choice = f k` and
everything else is as in `st`. -/
def State.withChoices (st : State) (f : Nat → Int) : State :=
  { st with conflicts := st.conflicts.enum.map (fun p => { p.2 with Choice := f p.1 }) }

/-- The value `out` built in the loop of `Select` for `conflict` at position `idx`:
the resolved marker or the 1-based number, then `FileName:Start`. -/
def rowLabel (env : Env) (idx : Nat) (conflict : Conflict) : String :=
  if conflict.Choice ≠ 0 then
    env.Green env.Regular "✅  %s:%d" [.str conflict.FileName, .int conflict.Start]
  else
    env.Red env.Regular "%d. %s:%d"
      [.int ((idx : Int) + 1), .str conflict.FileName, .int conflict.Start]

/-! ## Sample data -/

/-- A colour helper that tags the format string and drops the arguments. -/
def sampleColor (tag : String) (_style : Int) (format : String) (_args : List Arg) : String :=
  tag ++ format

/-- A file of twenty lines, `l1` to `l20`. -/
def sampleLines : List String :=
  ["l1", "l2", "l3", "l4", "l5", "l6", "l7", "l8", "l9", "l10",
   "l11", "l12", "l13", "l14", "l15", "l16", "l17", "l18", "l19", "l20"]

/-- An environment with one file `/f` of twenty lines. -/
def sampleEnv : Env where
  Panel := "panel"
  Current := "current"
  Foreign := "foreign"
  Regular := 0
  Black := sampleColor "k:"
  Green := sampleColor "g:"
  Red := sampleColor "r:"
  diff := fun a b => a ++ b
  allFileLines := [("/f", sampleLines)]

/-- A conflict of file `/f` with the given bounds, choice and peeks. -/
def sampleConflict (start mid stop choice top bottom : Int) : Conflict where
  Choice := choice
  FileName := "f"
  AbsolutePath := "/f"
  Start := start
  Middle := mid
  End := stop
  CurrentLines := ["a"]
  ForeignLines := ["b"]
  ColoredCurrentLines := ["A"]
  ColoredForeignLines := ["B"]
  CurrentName := "HEAD"
  ForeignName := "topic"
  topPeek := top
  bottomPeek := bottom
  displayDiff := false

/-- The three empty views of the interface. -/
def sampleViews : List (String × View) :=
  [("panel", ⟨"", []⟩), ("current", ⟨"", []⟩), ("foreign", ⟨"", []⟩)]

/-- A navigator over the given conflicts with the cursor at `cur`. -/
def sampleState (cs : List Conflict) (cur : Int) : State where
  conflicts := cs
  cur := cur
  conflictCount := cs.length
  views := sampleViews
  quits := 0

/-! ## Viewport: `getPaddingLines` -/

theorem stylePadding_eq_map (env : Env) (s : List String) :
    stylePadding env s = s.map env.styled := by
  have gen : ∀ (acc : List String),
      s.foldl (fun padding l => padding ++ [env.Black env.Regular l []]) acc
        = acc ++ s.map (fun l => env.Black env.Regular l []) := by
    induction s with
    | nil => intro acc; simp
    | cons x xs ih => intro acc; simp [ih]
  simpa [stylePadding] using gen []

theorem clampTop_topPeek (c : Conflict) (h : 1 ≤ c.Start) :
    c.clampTop.topPeek = min (max c.topPeek 0) (c.Start - 1) := by
  unfold Conflict.clampTop
  simp only []
  split_ifs with h1 h2
  · simp only []; omega
  · simp only []; omega
  · omega

theorem clampBottom_bottomPeek (c : Conflict) (len : Int) (h : c.End ≤ len) :
    (c.clampBottom len).bottomPeek = min (max c.bottomPeek 0) (len - c.End) := by
  unfold Conflict.clampBottom
  split_ifs with h1 h2
  · simp only []; omega
  · simp only []; omega
  · omega

theorem clampTop_frame (c : Conflict) :
    c.clampTop = { c with topPeek := c.clampTop.topPeek } := by
  unfold Conflict.clampTop
  simp only []
  split_ifs <;> rfl

theorem clampBottom_frame (c : Conflict) (len : Int) :
    c.clampBottom len = { c with bottomPeek := (c.clampBottom len).bottomPeek } := by
  unfold Conflict.clampBottom
  split_ifs <;> rfl

theorem clamped_eq (env : Env) (c : Conflict) (h : c.InFile env) :
    c.clamped env =
      { c with
        topPeek := min (max c.topPeek 0) (c.Start - 1)
        bottomPeek := min (max c.bottomPeek 0)
          ((env.fileLines c.AbsolutePath).length - c.End) } := by
  obtain ⟨h1, h2, h3⟩ := h
  have hE : c.clampTop.End = c.End := by rw [clampTop_frame]
  have hB : c.clampTop.bottomPeek = c.bottomPeek := by rw [clampTop_frame]
  have hb := clampBottom_bottomPeek c.clampTop (env.fileLines c.AbsolutePath).length
    (by rw [hE]; exact h3)
  unfold Conflict.clamped
  rw [clampBottom_frame, hb, hE, hB, clampTop_frame, clampTop_topPeek c h1]

theorem clamped_topPeek (env : Env) (c : Conflict) :
    (c.clamped env).topPeek = c.clampTop.topPeek := by
  unfold Conflict.clamped; rw [clampBottom_frame]

theorem clamped_frame (env : Env) (c : Conflict) :
    c.clamped env =
      { c with topPeek := (c.clamped env).topPeek, bottomPeek := (c.clamped env).bottomPeek } := by
  rw [clamped_topPeek]
  unfold Conflict.clamped
  rw [clampBottom_frame, clampTop_frame]

theorem getPaddingLines_eq (env : Env) (c : Conflict) (h : c.InFile env) :
    c.getPaddingLines env = .ok
      (c.clamped env, (c.clamped env).topLines env, (c.clamped env).bottomLines env) := by
  have hc := clamped_eq env c h
  obtain ⟨h1, h2, h3⟩ := h
  have ht := clampTop_topPeek c h1
  have hb2 : (c.clamped env).bottomPeek
      = min (max c.bottomPeek 0) ((env.fileLines c.AbsolutePath).length - c.End) := by
    rw [hc]
  have e1 : goSlice (env.fileLines c.AbsolutePath) (c.Start - 1 - c.clampTop.topPeek) (c.Start - 1)
      = .ok (((env.fileLines c.AbsolutePath).drop (c.Start - 1 - c.clampTop.topPeek).toNat).take
          c.clampTop.topPeek.toNat) := by
    unfold goSlice
    rw [if_pos (by rw [ht]; omega)]
    congr 2
    rw [ht]; omega
  have e2 : goSlice (env.fileLines c.AbsolutePath) c.End
      (c.End + (c.clamped env).bottomPeek)
      = .ok (((env.fileLines c.AbsolutePath).drop c.End.toNat).take
          (c.clamped env).bottomPeek.toNat) := by
    unfold goSlice
    rw [if_pos (by rw [hb2]; omega)]
    congr 2
    rw [hb2]; omega
  have e3 := clamped_topPeek env c
  have f1 : (c.clamped env).Start = c.Start := by rw [clamped_frame]
  have f2 : (c.clamped env).End = c.End := by rw [clamped_frame]
  have f3 : (c.clamped env).AbsolutePath = c.AbsolutePath := by rw [clamped_frame]
  unfold Conflict.getPaddingLines Conflict.topLines Conflict.bottomLines
  rw [f1, f2, f3, e3]
  unfold Conflict.clamped at e2 ⊢
  simp only [e1, e2, Res.bind, stylePadding_eq_map]

theorem clamped_inFile (env : Env) (c : Conflict) (h : c.InFile env) :
    (c.clamped env).InFile env := by
  unfold Conflict.InFile at h ⊢
  rw [clamped_frame]
  exact h

theorem clamped_idem (env : Env) (c : Conflict) (h : c.InFile env) :
    (c.clamped env).clamped env = c.clamped env := by
  rw [clamped_eq env _ (clamped_inFile env c h)]
  have hc := clamped_eq env c h
  have f1 : (c.clamped env).Start = c.Start := by rw [clamped_frame]
  have f2 : (c.clamped env).End = c.End := by rw [clamped_frame]
  have f3 : (c.clamped env).AbsolutePath = c.AbsolutePath := by rw [clamped_frame]
  have g1 : (c.clamped env).topPeek = min (max c.topPeek 0) (c.Start - 1) := by rw [hc]
  have g2 : (c.clamped env).bottomPeek
      = min (max c.bottomPeek 0) ((env.fileLines c.AbsolutePath).length - c.End) := by rw [hc]
  obtain ⟨h1, h2, h3⟩ := h
  have k1 : min (max (c.clamped env).topPeek 0) ((c.clamped env).Start - 1)
      = (c.clamped env).topPeek := by rw [f1, g1]; omega
  have k2 : min (max (c.clamped env).bottomPeek 0)
      ((env.fileLines (c.clamped env).AbsolutePath).length - (c.clamped env).End)
      = (c.clamped env).bottomPeek := by rw [f2, f3, g2]; omega
  rw [k1, k2]

/-! ## Rendering: `Select` -/

theorem Select_eq_renderState (env : Env) (st : State) (i : Nat) (showHelp : Bool)
    (c : Conflict) (hc : st.conflicts[i]? = some c) (hin : c.InFile env) :
    Select env st i showHelp = .ok (renderState env st i c showHelp) := by
  have hs : (selectList env st c showHelp).conflicts = st.conflicts := by
    unfold selectList
    split <;> rfl
  have g1 := getPaddingLines_eq env c hin
  have g2 := getPaddingLines_eq env (c.clamped env) (clamped_inFile env c hin)
  rw [clamped_idem env c hin] at g2
  unfold Select renderState selectPanels
  rw [hc]
  simp only [hs, hc]
  split
  · rfl
  · simp only [g1, g2, Res.bind]
    split <;> rfl

theorem lookup_map_modify (l : List (String × View)) (n m : String) (f : View → View) :
    (l.map (fun p => (p.1, if p.1 = n then f p.2 else p.2))).lookup m
      = (l.lookup m).map (fun v => if m = n then f v else v) := by
  induction l with
  | nil => rfl
  | cons p ps ih =>
    obtain ⟨k, v⟩ := p
    rw [List.map_cons]
    by_cases hk : m = k
    · subst hk
      simp only [List.lookup, beq_self_eq_true, Option.map]
    · have hb : (m == k) = false := by simpa using hk
      simp only [List.lookup, hb]
      exact ih

theorem view_modifyView (st : State) (n m : String) (f : View → View) :
    (st.modifyView n f).view m = (st.view m).map (fun v => if m = n then f v else v) :=
  lookup_map_modify st.views n m f

theorem view_modifyView_some (st : State) (n m : String) (f : View → View) (v : View)
    (h : st.view m = some v) :
    (st.modifyView n f).view m = some (if m = n then f v else v) := by
  rw [view_modifyView, h]; rfl

theorem view_modifyView_none (st : State) (n m : String) (f : View → View)
    (h : st.view m = none) : (st.modifyView n f).view m = none := by
  rw [view_modifyView, h]; rfl

theorem view_setConflict (st : State) (i : Nat) (c : Conflict) (m : String) :
    (st.setConflict i c).view m = st.view m := rfl

theorem foldl_write (g : Nat × Conflict → Write) (l : List (Nat × Conflict)) (v : View) :
    l.foldl (fun v p => v.write (g p)) v = { v with writes := v.writes ++ l.map g } := by
  induction l generalizing v with
  | nil => simp
  | cons p ps ih => rw [List.foldl_cons, ih]; simp [View.write]

theorem listPanelView_eq (env : Env) (cs : List Conflict) (c : Conflict) (showHelp : Bool)
    (v : View) :
    listPanelView env cs c showHelp v =
      { Title := v.Title
        writes := cs.enum.map (fun p => listRow env c p.1 p.2)
          ++ (if showHelp then [Write.printHelp] else []) } := by
  unfold listPanelView
  simp only [foldl_write]
  cases showHelp <;> simp [View.Clear, View.write]

/-- Two conflicts that the list panel cannot tell apart. -/
theorem listRow_congr (env : Env) (c c2 d d2 : Conflict) (idx : Nat)
    (hc : c.FileName = c2.FileName ∧ c.Start = c2.Start)
    (hd : d.Choice = d2.Choice ∧ d.FileName = d2.FileName ∧ d.Start = d2.Start) :
    listRow env c idx d = listRow env c2 idx d2 := by
  unfold listRow Conflict.isEqual
  rw [hc.1, hc.2, hd.1, hd.2.1, hd.2.2]

theorem rows_set (env : Env) (cs : List Conflict) (i : Nat) (c c2 d d2 : Conflict)
    (hi : cs[i]? = some d)
    (hc : c.FileName = c2.FileName ∧ c.Start = c2.Start)
    (hd : d.Choice = d2.Choice ∧ d.FileName = d2.FileName ∧ d.Start = d2.Start) :
    (cs.set i d2).enum.map (fun p => listRow env c2 p.1 p.2)
      = cs.enum.map (fun p => listRow env c p.1 p.2) := by
  apply List.ext_getElem?
  intro k
  simp only [List.getElem?_map, List.getElem?_enum, List.getElem?_set, Option.map_map]
  by_cases hk : i = k
  · subst hk
    have hlt : i < cs.length := by
      rcases Nat.lt_or_ge i cs.length with h | h
      · exact h
      · rw [List.getElem?_eq_none h] at hi; cases hi
    simp only [if_true, hlt, hi, Option.map, Function.comp]
    rw [listRow_congr env c c2 d d2 i hc hd]
  · simp only [if_neg hk]
    cases cs[k]? with
    | none => rfl
    | some x => 
      simp only [Option.map, Function.comp]
      rw [listRow_congr env c c2 x x k hc ⟨rfl, rfl, rfl⟩]

theorem selectList_conflicts (env : Env) (st : State) (c : Conflict) (h : Bool) :
    (selectList env st c h).conflicts = st.conflicts := by
  unfold selectList; split <;> rfl

theorem selectList_view (env : Env) (st : State) (c : Conflict) (h : Bool) (m : String) :
    (selectList env st c h).view m = none ↔ st.view m = none := by
  unfold selectList
  split
  · rfl
  · rw [view_modifyView]; simp

theorem renderState_idem (env : Env) (st : State) (i : Nat) (h : Bool) (c : Conflict)
    (hc : st.conflicts[i]? = some c) (hin : c.InFile env) :
    ∃ c2, (renderState env st i c h).conflicts[i]? = some c2 ∧ c2.InFile env ∧
      renderState env (renderState env st i c h) i c2 h = renderState env st i c h := by
  have hlt : i < st.conflicts.length := by
    rcases Nat.lt_or_ge i st.conflicts.length with h | h
    · exact h
    · rw [List.getElem?_eq_none h] at hc; cases hc
  have hidem := clamped_idem env c hin
  have hin1 := clamped_inFile env c hin
  have hk : c.FileName = (c.clamped env).FileName ∧ c.Start = (c.clamped env).Start := by
    rw [clamped_frame]; exact ⟨rfl, rfl⟩
  have hk2 : c.Choice = (c.clamped env).Choice ∧ c.FileName = (c.clamped env).FileName ∧
      c.Start = (c.clamped env).Start := by
    rw [clamped_frame]; exact ⟨rfl, rfl, rfl⟩
  have hrows := rows_set env st.conflicts i c (c.clamped env) c (c.clamped env) hc hk hk2
  have hn1 : (c.clamped env).CurrentName = c.CurrentName := by rw [clamped_frame]
  rcases hP : st.view env.Panel with _ | vP <;>
  rcases hC : st.view env.Current with _ | vC <;>
  rcases hF : st.view env.Foreign with _ | vF
  case none.none.none | none.none.some | some.none.none | some.none.some =>
    refine ⟨c, ?_, hin, ?_⟩
    · simp only [renderState, selectList, hP, hC, hF, hc, view_modifyView, view_setConflict,
        Option.map]
      try exact hc
    · simp only [renderState, selectList, hP, hC, hF, hc, view_modifyView, view_setConflict,
        Option.map, hidem]
      try simp only [State.modifyView, State.setConflict, hn1, hrows]
      try simp only [State.mk.injEq, List.set_set, List.map_map, true_and, and_true]
      try (
        apply List.map_congr_left
        intro p _
        clear hrows hk hk2 hin hin1 hidem hn1 hc hlt hP hC hF
        obtain ⟨k, v⟩ := p
        simp only [Function.comp]
        split_ifs <;> simp only [listPanelView_eq])
  all_goals
    refine ⟨c.clamped env, ?_, hin1, ?_⟩
    · simp only [renderState, selectList, hP, hC, hF, hc, view_modifyView, view_setConflict,
        Option.map]
      simp only [State.modifyView, State.setConflict, List.getElem?_set, List.length_set, hlt, if_true]
    · simp only [renderState, selectList, hP, hC, hF, hc, view_modifyView, view_setConflict,
        Option.map, hidem]
      simp only [State.modifyView, State.setConflict, hn1, List.set_set]
      simp only [State.mk.injEq, List.set_set, List.map_map, true_and, and_true]
      apply List.map_congr_left
      intro p _
      obtain ⟨k, v⟩ := p
      simp only [Function.comp]
      split_ifs <;>
        simp only [panelBody, View.Clear, View.write, listPanelView_eq, hrows]

/-! ## Frame properties -/

theorem getPaddingLines_ok_clamped (env : Env) (c : Conflict)
    (r : Conflict × List String × List String) (h : c.getPaddingLines env = .ok r) :
    r.1 = c.clamped env := by
  unfold Conflict.getPaddingLines at h
  simp only [] at h
  cases h1 : goSlice (env.fileLines c.AbsolutePath) (c.Start - 1 - c.clampTop.topPeek)
      (c.Start - 1) with
  | fault f => rw [h1] at h; cases h
  | ok above =>
    rw [h1] at h
    simp only [Res.bind] at h
    cases h2 : goSlice (env.fileLines c.AbsolutePath) c.End
        (c.End + (c.clampTop.clampBottom (env.fileLines c.AbsolutePath).length).bottomPeek) with
    | fault f => rw [h2] at h; cases h
    | ok below =>
      rw [h2] at h
      simp only [Res.ok.injEq] at h
      rw [← h]
      rfl

theorem clamped_choice (env : Env) (c : Conflict) : (c.clamped env).Choice = c.Choice := by
  rw [clamped_frame]

theorem getElem?_lt {α : Type} (l : List α) (i : Nat) (a : α) (h : l[i]? = some a) :
    i < l.length := by
  rcases Nat.lt_or_ge i l.length with h1 | h1
  · exact h1
  · rw [List.getElem?_eq_none h1] at h; cases h

theorem set_self {α : Type} (l : List α) (i : Nat) (a : α) (h : l[i]? = some a) :
    l.set i a = l := by
  apply List.ext_getElem?
  intro k
  rw [List.getElem?_set]
  by_cases hk : i = k
  · subst hk; simp [getElem?_lt l i a h, h]
  · simp [hk]

theorem sameButPeeks_trans (c d e : Conflict)
    (a : d = { c with topPeek := d.topPeek, bottomPeek := d.bottomPeek })
    (b : e = { d with topPeek := e.topPeek, bottomPeek := e.bottomPeek }) :
    e = { c with topPeek := e.topPeek, bottomPeek := e.bottomPeek } := by
  cases c; cases d; cases e
  simp only [Conflict.mk.injEq] at a b ⊢
  simp_all

theorem clamped_twice_frame (env : Env) (c : Conflict) :
    (c.clamped env).clamped env =
      { c with topPeek := ((c.clamped env).clamped env).topPeek
               bottomPeek := ((c.clamped env).clamped env).bottomPeek } :=
  sameButPeeks_trans c (c.clamped env) _ (clamped_frame env c) (clamped_frame env (c.clamped env))

/-- What `Select` leaves untouched whenever it returns. -/
theorem Select_frame (env : Env) (st st1 : State) (i : Nat) (showHelp : Bool)
    (h : Select env st i showHelp = .ok st1) :
    st1.cur = st.cur ∧ st1.conflictCount = st.conflictCount ∧ st1.quits = st.quits ∧
      ∃ c c2, st.conflicts[i]? = some c ∧ st1.conflicts = st.conflicts.set i c2 ∧
        c2 = { c with topPeek := c2.topPeek, bottomPeek := c2.bottomPeek } := by
  unfold Select at h
  cases hc : st.conflicts[i]? with
  | none => rw [hc] at h; cases h
  | some c =>
    rw [hc] at h
    simp only [] at h
    have hs := selectList_conflicts env st c showHelp
    have hcur : (selectList env st c showHelp).cur = st.cur := by
      unfold selectList; split <;> rfl
    have hcc : (selectList env st c showHelp).conflictCount = st.conflictCount := by
      unfold selectList; split <;> rfl
    have hq : (selectList env st c showHelp).quits = st.quits := by
      unfold selectList; split <;> rfl
    generalize selectList env st c showHelp = s0 at h hs hcur hcc hq
    unfold selectPanels at h
    rw [hs, hc] at h
    simp only [] at h
    split at h
    · simp only [Res.ok.injEq] at h
      subst h
      exact ⟨hcur, hcc, hq, c, c, rfl, by rw [hs, set_self _ _ _ hc], rfl⟩
    · cases g1 : c.getPaddingLines env with
      | fault f => rw [g1] at h; cases h
      | ok r =>
        rw [g1] at h
        simp only [Res.bind] at h
        have e1 := getPaddingLines_ok_clamped env c r g1
        split at h
        · simp only [Res.ok.injEq] at h
          subst h
          refine ⟨hcur, hcc, hq, c, c.clamped env, rfl, ?_, clamped_frame env c⟩
          rw [e1]; simp only [State.modifyView, State.setConflict, hs]
        · cases g2 : r.1.getPaddingLines env with
          | fault f => rw [g2] at h; cases h
          | ok r2 =>
            rw [g2] at h
            simp only [Res.ok.injEq] at h
            subst h
            have e2 := getPaddingLines_ok_clamped env r.1 r2 g2
            rw [e1] at e2
            refine ⟨hcur, hcc, hq, c, (c.clamped env).clamped env, rfl, ?_,
              clamped_twice_frame env c⟩
            rw [e2]
            simp only [State.modifyView, State.setConflict, hs, List.set_set]

/-! ## Scrolling -/

theorem inFile_of_sameButPeeks (env : Env) (c c1 : Conflict) (h : c.InFile env)
    (e : c1 = { c with topPeek := c1.topPeek, bottomPeek := c1.bottomPeek }) :
    c1.InFile env := by
  unfold Conflict.InFile at h ⊢
  rw [e]; exact h

theorem scrollPeek_frame (c c1 : Conflict) (d : Int) (h : scrollPeek c d = some c1) :
    c1 = { c with topPeek := c1.topPeek, bottomPeek := c1.bottomPeek } := by
  unfold scrollPeek at h
  split_ifs at h <;> simp only [Option.some.injEq] at h <;> rw [← h]

theorem getElem?_set_self {α : Type} (l : List α) (i : Nat) (a b : α) (h : l[i]? = some a) :
    (l.set i b)[i]? = some b := by
  rw [List.getElem?_set]
  simp [getElem?_lt l i a h]

/-- A `scroll` on a conflict that lies inside its file returns, and leaves at the
same index a conflict that differs at most in its peeks. -/
theorem scroll_ok (env : Env) (st : State) (i : Nat) (d : Int) (c : Conflict)
    (hc : st.conflicts[i]? = some c) (hin : c.InFile env) :
    ∃ st1 c1, scroll env st i d = .ok st1 ∧ st1.conflicts[i]? = some c1 ∧
      c1 = { c with topPeek := c1.topPeek, bottomPeek := c1.bottomPeek } := by
  unfold scroll
  rw [hc]
  simp only []
  cases hp : scrollPeek c d with
  | none => exact ⟨st, c, rfl, hc, rfl⟩
  | some c0 =>
    simp only []
    have e0 := scrollPeek_frame c c0 d hp
    have hin0 := inFile_of_sameButPeeks env c c0 hin e0
    have hc0 : (st.setConflict i c0).conflicts[i]? = some c0 :=
      getElem?_set_self st.conflicts i c c0 hc
    have hsel := Select_eq_renderState env (st.setConflict i c0) i false c0 hc0 hin0
    obtain ⟨_, _, _, c', c2, h1, h2, h3⟩ := Select_frame env _ _ i false hsel
    rw [hc0] at h1
    simp only [Option.some.injEq] at h1
    subst h1
    refine ⟨_, c2, hsel, ?_, sameButPeeks_trans c c0 c2 e0 h3⟩
    rw [h2]
    exact getElem?_set_self _ i c0 c2 hc0

theorem scrolls_ok (env : Env) (ds : List Int) (st : State) (i : Nat) (c : Conflict)
    (hc : st.conflicts[i]? = some c) (hin : c.InFile env) :
    ∃ st1 c1, scrolls env st i ds = .ok st1 ∧ st1.conflicts[i]? = some c1 ∧
      c1 = { c with topPeek := c1.topPeek, bottomPeek := c1.bottomPeek } := by
  induction ds generalizing st c with
  | nil => exact ⟨st, c, rfl, hc, rfl⟩
  | cons d ds ih =>
    obtain ⟨st1, c1, h1, h2, h3⟩ := scroll_ok env st i d c hc hin
    obtain ⟨st2, c2, k1, k2, k3⟩ := ih st1 c1 h2 (inFile_of_sameButPeeks env c c1 hin h3)
    refine ⟨st2, c2, ?_, k2, sameButPeeks_trans c c1 c2 h3 k3⟩
    simp only [scrolls, h1, Res.bind]
    exact k1

/-- After `getPaddingLines` on a conflict inside its file both peeks are in range. -/
theorem clamped_bounds (env : Env) (c : Conflict) (h : c.InFile env) :
    0 ≤ (c.clamped env).topPeek ∧ (c.clamped env).topPeek ≤ c.Start - 1 ∧
      0 ≤ (c.clamped env).bottomPeek ∧
      (c.clamped env).bottomPeek ≤ ((env.fileLines c.AbsolutePath).length : Int) - c.End := by
  have hc := clamped_eq env c h
  obtain ⟨h1, h2, h3⟩ := h
  have g1 : (c.clamped env).topPeek = min (max c.topPeek 0) (c.Start - 1) := by rw [hc]
  have g2 : (c.clamped env).bottomPeek
      = min (max c.bottomPeek 0) ((env.fileLines c.AbsolutePath).length - c.End) := by rw [hc]
  rw [g1, g2]
  omega

/-- C1. Clamp invariant: for a conflict with `1 ≤ Start ≤ End ≤ len(lines)`, held at
index `i` of the navigator, whatever integers `p` and `q` are stored in `topPeek`
and `bottomPeek`, `getPaddingLines` returns and leaves `0 ≤ topPeek ≤ Start-1` and
`0 ≤ bottomPeek ≤ len(lines)-End`; and any finite sequence of `scroll` calls on
that conflict returns and leaves a conflict on which `getPaddingLines` again
returns with both peeks inside those same ranges. -/
theorem getPaddingLines_clamp_invariant (env : Env) (st : State) (i : Nat) (c : Conflict)
    (directions : List Int) (p q : Int)
    (hc : st.conflicts[i]? = some c)
    (h1 : 1 ≤ c.Start) (h2 : c.Start ≤ c.End)
    (h3 : c.End ≤ ((env.fileLines c.AbsolutePath).length : Int)) :
    (∃ r, ({ c with topPeek := p, bottomPeek := q } : Conflict).getPaddingLines env = .ok r ∧
        0 ≤ r.1.topPeek ∧ r.1.topPeek ≤ c.Start - 1 ∧
        0 ≤ r.1.bottomPeek ∧
        r.1.bottomPeek ≤ ((env.fileLines c.AbsolutePath).length : Int) - c.End) ∧
      ∃ st1 c1 r, scrolls env st i directions = .ok st1 ∧ st1.conflicts[i]? = some c1 ∧
        c1.getPaddingLines env = .ok r ∧
        0 ≤ r.1.topPeek ∧ r.1.topPeek ≤ c.Start - 1 ∧
        0 ≤ r.1.bottomPeek ∧
        r.1.bottomPeek ≤ ((env.fileLines c.AbsolutePath).length : Int) - c.End := by
  have hin : c.InFile env := ⟨h1, h2, h3⟩
  constructor
  · have hin0 : ({ c with topPeek := p, bottomPeek := q } : Conflict).InFile env := hin
    exact ⟨_, getPaddingLines_eq env _ hin0, clamped_bounds env _ hin0⟩
  · obtain ⟨st1, c1, k1, k2, k3⟩ := scrolls_ok env directions st i c hc hin
    have hin1 := inFile_of_sameButPeeks env c c1 hin k3
    have hb := clamped_bounds env c1 hin1
    have f1 : c1.Start = c.Start := by rw [k3]
    have f2 : c1.End = c.End := by rw [k3]
    have f3 : c1.AbsolutePath = c.AbsolutePath := by rw [k3]
    rw [f1, f2, f3] at hb
    exact ⟨st1, c1, _, k1, k2, getPaddingLines_eq env c1 hin1, hb⟩

/-- Witness for C1: a conflict at lines 10..12 of the twenty-line sample file, with
requested peeks `-5` and `100`, and scrolled up, down, down and up. -/
theorem getPaddingLines_clamp_invariant_witness :
    (sampleState [sampleConflict 10 11 12 0 0 0] 0).conflicts[0]?
        = some (sampleConflict 10 11 12 0 0 0) ∧
    (∃ r, ({ sampleConflict 10 11 12 0 0 0 with topPeek := -5, bottomPeek := 100 } :
          Conflict).getPaddingLines sampleEnv = .ok r ∧
        0 ≤ r.1.topPeek ∧ r.1.topPeek ≤ 10 - 1 ∧ 0 ≤ r.1.bottomPeek ∧ r.1.bottomPeek ≤ 20 - 12) ∧
      ∃ st1 c1 r, scrolls sampleEnv (sampleState [sampleConflict 10 11 12 0 0 0] 0) 0
          [Up, Down, Down, Up] = .ok st1 ∧ st1.conflicts[0]? = some c1 ∧
        c1.getPaddingLines sampleEnv = .ok r ∧
        0 ≤ r.1.topPeek ∧ r.1.topPeek ≤ 10 - 1 ∧ 0 ≤ r.1.bottomPeek ∧ r.1.bottomPeek ≤ 20 - 12 :=
  ⟨rfl, getPaddingLines_clamp_invariant sampleEnv (sampleState [sampleConflict 10 11 12 0 0 0] 0)
    0 (sampleConflict 10 11 12 0 0 0) [Up, Down, Down, Up] (-5) 100 rfl (by decide) (by decide)
    (by decide)⟩

/-- C5. Viewport output: for a conflict with `1 ≤ Start ≤ End ≤ len(lines)`,
`getPaddingLines` returns; with `t` and `b` the peeks stored after the call,
`topPadding` is the styled images `Black(Regular, l)`, in file order, of the lines at
0-based indices `Start-1-t .. Start-2`, and `bottomPadding` those of the lines at
indices `End .. End+b-1`; so `len(topPadding) = t` and `len(bottomPadding) = b`. -/
theorem getPaddingLines_output (env : Env) (c : Conflict)
    (h1 : 1 ≤ c.Start) (h2 : c.Start ≤ c.End)
    (h3 : c.End ≤ ((env.fileLines c.AbsolutePath).length : Int)) :
    ∃ c1 top bottom, c.getPaddingLines env = .ok (c1, top, bottom) ∧
      (top.length : Int) = c1.topPeek ∧ (bottom.length : Int) = c1.bottomPeek ∧
      (∀ k : Nat, (k : Int) < c1.topPeek →
        ∃ l, (env.fileLines c.AbsolutePath)[(c.Start - 1 - c1.topPeek).toNat + k]? = some l ∧
          top[k]? = some (env.Black env.Regular l [])) ∧
      (∀ k : Nat, (k : Int) < c1.bottomPeek →
        ∃ l, (env.fileLines c.AbsolutePath)[c.End.toNat + k]? = some l ∧
          bottom[k]? = some (env.Black env.Regular l [])) := by
  have hin : c.InFile env := ⟨h1, h2, h3⟩
  have hb := clamped_bounds env c hin
  obtain ⟨b1, b2, b3, b4⟩ := hb
  have f1 : (c.clamped env).Start = c.Start := by rw [clamped_frame]
  have f2 : (c.clamped env).End = c.End := by rw [clamped_frame]
  have f3 : (c.clamped env).AbsolutePath = c.AbsolutePath := by rw [clamped_frame]
  refine ⟨_, _, _, getPaddingLines_eq env c hin, ?_, ?_, ?_, ?_⟩
  · simp only [Conflict.topLines, f1, f3, List.length_map, List.length_take, List.length_drop]
    omega
  · simp only [Conflict.bottomLines, f2, f3, List.length_map, List.length_take,
      List.length_drop]
    omega
  · intro k hk
    have hlt : (c.Start - 1 - (c.clamped env).topPeek).toNat + k
        < (env.fileLines c.AbsolutePath).length := by omega
    refine ⟨(env.fileLines c.AbsolutePath)[(c.Start - 1 - (c.clamped env).topPeek).toNat + k],
      List.getElem?_eq_getElem hlt, ?_⟩
    have hk2 : k < (c.clamped env).topPeek.toNat := by omega
    simp only [Conflict.topLines, f1, f3, List.getElem?_map, List.getElem?_take, hk2, if_true,
      List.getElem?_drop, List.getElem?_eq_getElem hlt, Option.map, Env.styled]
  · intro k hk
    have hlt : c.End.toNat + k < (env.fileLines c.AbsolutePath).length := by omega
    refine ⟨(env.fileLines c.AbsolutePath)[c.End.toNat + k], List.getElem?_eq_getElem hlt, ?_⟩
    have hk2 : k < (c.clamped env).bottomPeek.toNat := by omega
    simp only [Conflict.bottomLines, f2, f3, List.getElem?_map, List.getElem?_take, hk2,
      if_true, List.getElem?_drop, List.getElem?_eq_getElem hlt, Option.map, Env.styled]

/-- Witness for C5: the conflict at lines 10..12 of the sample file with peeks 2 and 3. -/
theorem getPaddingLines_output_witness :
    ∃ c1 top bottom, (sampleConflict 10 11 12 0 2 3).getPaddingLines sampleEnv
        = .ok (c1, top, bottom) ∧
      (top.length : Int) = c1.topPeek ∧ (bottom.length : Int) = c1.bottomPeek ∧
      (∀ k : Nat, (k : Int) < c1.topPeek →
        ∃ l, sampleLines[((10 : Int) - 1 - c1.topPeek).toNat + k]? = some l ∧
          top[k]? = some (sampleColor "k:" 0 l [])) ∧
      (∀ k : Nat, (k : Int) < c1.bottomPeek →
        ∃ l, sampleLines[(12 : Int).toNat + k]? = some l ∧
          bottom[k]? = some (sampleColor "k:" 0 l [])) :=
  getPaddingLines_output sampleEnv (sampleConflict 10 11 12 0 2 3) (by decide) (by decide)
    (by decide)

/-- C6. Exact clamp value: for a conflict with `1 ≤ Start ≤ End ≤ len(lines)` holding
`p` in `topPeek` and `q` in `bottomPeek`, `getPaddingLines` returns and stores
`topPeek = min(max(p, 0), Start-1)` and `bottomPeek = min(max(q, 0), len(lines)-End)`;
a value already inside its range is left unchanged. -/
theorem getPaddingLines_exact_clamp (env : Env) (c : Conflict)
    (h1 : 1 ≤ c.Start) (h2 : c.Start ≤ c.End)
    (h3 : c.End ≤ ((env.fileLines c.AbsolutePath).length : Int)) :
    ∃ r, c.getPaddingLines env = .ok r ∧
      r.1.topPeek = min (max c.topPeek 0) (c.Start - 1) ∧
      r.1.bottomPeek = min (max c.bottomPeek 0)
        (((env.fileLines c.AbsolutePath).length : Int) - c.End) ∧
      (0 ≤ c.topPeek ∧ c.topPeek ≤ c.Start - 1 → r.1.topPeek = c.topPeek) ∧
      (0 ≤ c.bottomPeek ∧
          c.bottomPeek ≤ ((env.fileLines c.AbsolutePath).length : Int) - c.End →
        r.1.bottomPeek = c.bottomPeek) := by
  have hin : c.InFile env := ⟨h1, h2, h3⟩
  have hc := clamped_eq env c hin
  have g1 : (c.clamped env).topPeek = min (max c.topPeek 0) (c.Start - 1) := by rw [hc]
  have g2 : (c.clamped env).bottomPeek
      = min (max c.bottomPeek 0) ((env.fileLines c.AbsolutePath).length - c.End) := by rw [hc]
  refine ⟨_, getPaddingLines_eq env c hin, g1, g2, ?_, ?_⟩
  · intro h; simp only [g1]; omega
  · intro h; simp only [g2]; omega

/-- Witness for C6: `Start = 10` in a twenty-line file turns `topPeek = 15` into 9,
and `End = 12` turns `bottomPeek = 50` into 8. -/
theorem getPaddingLines_exact_clamp_witness :
    ∃ r, (sampleConflict 10 11 12 0 15 50).getPaddingLines sampleEnv = .ok r ∧
      r.1.topPeek = 9 ∧ r.1.bottomPeek = 8 := by
  obtain ⟨r, hr, ht, hb, _, _⟩ :=
    getPaddingLines_exact_clamp sampleEnv (sampleConflict 10 11 12 0 15 50) (by decide)
      (by decide) (by decide)
  exact ⟨r, hr, ht.trans (by decide), hb.trans (by decide)⟩

/-! ## Idempotent rendering and the diff toggle -/

/-- C9. Render is idempotent: for a conflict with `1 ≤ Start ≤ End ≤ len(lines)` at
index `i`, whatever its peeks, `displayDiff` and `showHelp`, `Select` returns a state
`st1` and a second `Select` on `st1` returns `st1` again: the list panel, the titles,
the two panel bodies and the conflict with its clamped peeks are those of the first
call. Likewise `getPaddingLines` applied to its own result returns that result. -/
theorem Select_idempotent (env : Env) (st : State) (i : Nat) (showHelp : Bool) (c : Conflict)
    (hc : st.conflicts[i]? = some c)
    (h1 : 1 ≤ c.Start) (h2 : c.Start ≤ c.End)
    (h3 : c.End ≤ ((env.fileLines c.AbsolutePath).length : Int)) :
    (∃ st1, Select env st i showHelp = .ok st1 ∧ Select env st1 i showHelp = .ok st1) ∧
      ∃ r, c.getPaddingLines env = .ok r ∧ r.1.getPaddingLines env = .ok r := by
  have hin : c.InFile env := ⟨h1, h2, h3⟩
  constructor
  · obtain ⟨c2, k1, k2, k3⟩ := renderState_idem env st i showHelp c hc hin
    refine ⟨_, Select_eq_renderState env st i showHelp c hc hin, ?_⟩
    rw [Select_eq_renderState env _ i showHelp c2 k1 k2, k3]
  · refine ⟨_, getPaddingLines_eq env c hin, ?_⟩
    have g := getPaddingLines_eq env (c.clamped env) (clamped_inFile env c hin)
    rw [clamped_idem env c hin] at g
    exact g

/-- Witness for C9: rendering the conflict at lines 10..12 of the sample file with
out-of-range peeks, the help footer and the three views present. -/
theorem Select_idempotent_witness :
    (∃ st1, Select sampleEnv (sampleState [sampleConflict 10 11 12 0 15 (-3)] 0) 0 true
          = .ok st1 ∧ Select sampleEnv st1 0 true = .ok st1) ∧
      ∃ r, (sampleConflict 10 11 12 0 15 (-3)).getPaddingLines sampleEnv = .ok r ∧
        r.1.getPaddingLines sampleEnv = .ok r :=
  Select_idempotent sampleEnv (sampleState [sampleConflict 10 11 12 0 15 (-3)] 0) 0 true
    (sampleConflict 10 11 12 0 15 (-3)) rfl (by decide) (by decide) (by decide)

theorem toggleDiff_toggleDiff (c : Conflict) : c.toggleDiff.toggleDiff = c := by
  cases c
  simp [Conflict.toggleDiff]

/-- C8. Diff toggle is an involution with no other effect: `toggleDiff` negates
`displayDiff` and keeps every other field of the conflict; on the navigator it
touches only the conflict it is called on, not the cursor, the count, the views or
the quit signal; two calls restore the state, so `Select` after two toggles renders
exactly what `Select` renders before them. -/
theorem toggleDiff_involution (env : Env) (st : State) (i k : Nat) (showHelp : Bool)
    (c : Conflict) :
    c.toggleDiff = { c with displayDiff := !c.displayDiff } ∧
      c.toggleDiff.toggleDiff = c ∧
      (toggleDiffAt st i).conflicts[k]?
        = (if k = i then (st.conflicts[k]?).map Conflict.toggleDiff else st.conflicts[k]?) ∧
      (toggleDiffAt st i).cur = st.cur ∧
      (toggleDiffAt st i).conflictCount = st.conflictCount ∧
      (toggleDiffAt st i).views = st.views ∧
      (toggleDiffAt st i).quits = st.quits ∧
      toggleDiffAt (toggleDiffAt st i) i = st ∧
      Select env (toggleDiffAt (toggleDiffAt st i) i) i showHelp = Select env st i showHelp := by
  have hframe : (toggleDiffAt st i).cur = st.cur ∧
      (toggleDiffAt st i).conflictCount = st.conflictCount ∧
      (toggleDiffAt st i).views = st.views ∧ (toggleDiffAt st i).quits = st.quits := by
    unfold toggleDiffAt
    split <;> exact ⟨rfl, rfl, rfl, rfl⟩
  have hget : (toggleDiffAt st i).conflicts[k]?
      = (if k = i then (st.conflicts[k]?).map Conflict.toggleDiff else st.conflicts[k]?) := by
    unfold toggleDiffAt
    cases hc : st.conflicts[i]? with
    | none =>
      simp only []
      split_ifs with hk
      · subst hk; rw [hc]; rfl
      · rfl
    | some d =>
      simp only [State.setConflict, List.getElem?_set]
      by_cases hk : k = i
      · subst hk
        simp [getElem?_lt _ _ _ hc, hc]
      · have hk2 : ¬ i = k := fun e => hk e.symm
        simp [hk, hk2]
  have hinv : toggleDiffAt (toggleDiffAt st i) i = st := by
    cases hc : st.conflicts[i]? with
    | none =>
      have e : toggleDiffAt st i = st := by unfold toggleDiffAt; rw [hc]
      rw [e, e]
    | some d =>
      have e : toggleDiffAt st i = st.setConflict i d.toggleDiff := by
        unfold toggleDiffAt; rw [hc]
      have e2 : (st.setConflict i d.toggleDiff).conflicts[i]? = some d.toggleDiff :=
        getElem?_set_self st.conflicts i d _ hc
      rw [e]
      unfold toggleDiffAt
      rw [e2]
      simp only [State.setConflict, List.set_set, toggleDiff_toggleDiff, set_self _ _ _ hc]
  refine ⟨rfl, toggleDiff_toggleDiff c, hget, hframe.1, hframe.2.1, hframe.2.2.1,
    hframe.2.2.2, hinv, ?_⟩
  rw [hinv]

/-! ## The cursor scan: `nextConflict` -/

theorem scanLoop_self (fuel : Nat) (x cc : Int) : scanLoop fuel x x cc = .ok x := by
  cases fuel <;> simp [scanLoop]

/-- The loop of `nextConflict` is entered with `originalCur = cur`, so it makes no
pass: the function signals quit and renders `conflicts[cur]`. -/
theorem nextConflict_eq (env : Env) (fuel : Nat) (st : State) :
    nextConflict env fuel st =
      (goIndex st.conflicts st.cur).bind fun _ =>
        Select env (globalQuit st) st.cur.toNat false := by
  unfold nextConflict
  simp only [scanLoop_self, Res.bind, if_true]
  rfl

theorem choices_set (cs : List Conflict) (i : Nat) (c c2 : Conflict) (hc : cs[i]? = some c)
    (h : c2.Choice = c.Choice) :
    (cs.set i c2).map (·.Choice) = cs.map (·.Choice) := by
  apply List.ext_getElem?
  intro k
  simp only [List.getElem?_map, List.getElem?_set]
  by_cases hk : i = k
  · subst hk
    simp [getElem?_lt _ _ _ hc, hc, h]
  · simp [hk]

theorem Select_choices (env : Env) (st st1 : State) (i : Nat) (showHelp : Bool)
    (h : Select env st i showHelp = .ok st1) : st1.choices = st.choices := by
  obtain ⟨_, _, _, c, c2, k1, k2, k3⟩ := Select_frame env st st1 i showHelp h
  unfold State.choices
  rw [k2]
  exact choices_set st.conflicts i c c2 k1 (by rw [k3])

theorem nextConflict_choices (env : Env) (fuel : Nat) (st st1 : State)
    (h : nextConflict env fuel st = .ok st1) : st1.choices = st.choices := by
  rw [nextConflict_eq] at h
  cases hg : goIndex st.conflicts st.cur with
  | fault f => rw [hg] at h; cases h
  | ok c =>
    rw [hg] at h
    exact Select_choices env (globalQuit st) st1 _ false h

theorem scroll_choices (env : Env) (st st1 : State) (i : Nat) (d : Int)
    (h : scroll env st i d = .ok st1) : st1.choices = st.choices := by
  unfold scroll at h
  cases hc : st.conflicts[i]? with
  | none => rw [hc] at h; cases h
  | some c =>
    rw [hc] at h
    simp only [] at h
    cases hp : scrollPeek c d with
    | none =>
      rw [hp] at h
      simp only [Res.ok.injEq] at h
      rw [h]
    | some c0 =>
      rw [hp] at h
      simp only [] at h
      rw [Select_choices env _ st1 i false h]
      exact choices_set st.conflicts i c c0 hc (by rw [scrollPeek_frame c c0 d hp])

/-- C7. Resolution monotonicity: `toggleDiff`, `scroll` in any direction,
`getPaddingLines`, `Select` and `nextConflict` leave the `Choice` of every conflict as it
was, whenever they return; and `Resolve` called on the conflict at index `i` leaves the
`Choice` of every conflict at another index `k` as it was. -/
theorem choice_unchanged (env : Env) (fuel : Nat) (st : State) (i k : Nat) (d version : Int)
    (showHelp : Bool) (c : Conflict) :
    (toggleDiffAt st i).choices = st.choices ∧
      c.toggleDiff.Choice = c.Choice ∧
      (∀ st1, scroll env st i d = .ok st1 → st1.choices = st.choices) ∧
      (∀ r, c.getPaddingLines env = .ok r → r.1.Choice = c.Choice) ∧
      (∀ st1, Select env st i showHelp = .ok st1 → st1.choices = st.choices) ∧
      (∀ st1, nextConflict env fuel st = .ok st1 → st1.choices = st.choices) ∧
      (∀ st1, Resolve env fuel st i version = .ok st1 → k ≠ i →
        st1.choices[k]? = st.choices[k]?) := by
  refine ⟨?_, rfl, fun st1 h => scroll_choices env st st1 i d h, ?_,
    fun st1 h => Select_choices env st st1 i showHelp h,
    fun st1 h => nextConflict_choices env fuel st st1 h, ?_⟩
  · unfold toggleDiffAt
    cases hc : st.conflicts[i]? with
    | none => rfl
    | some c0 => exact choices_set st.conflicts i c0 c0.toggleDiff hc rfl
  · intro r h
    rw [getPaddingLines_ok_clamped env c r h, clamped_choice]
  · intro st1 h hk
    unfold Resolve at h
    cases hc : st.conflicts[i]? with
    | none => rw [hc] at h; cases h
    | some c0 =>
      rw [hc] at h
      simp only [] at h
      rw [nextConflict_choices env fuel _ st1 h]
      have hk2 : ¬ i = k := fun e => hk e.symm
      simp [State.choices, State.setConflict, List.getElem?_set, hk2]

/-- Witness for C7: two conflicts of the sample file, operations on the first one. -/
theorem choice_unchanged_witness :
    (∃ st1, scroll sampleEnv
        (sampleState [sampleConflict 3 4 5 2 0 0, sampleConflict 10 11 12 0 0 0] 0) 0 Up
          = .ok st1 ∧ st1.choices = [2, 0]) ∧
      (∃ st1, Select sampleEnv
        (sampleState [sampleConflict 3 4 5 2 0 0, sampleConflict 10 11 12 0 0 0] 0) 0 false
          = .ok st1 ∧ st1.choices = [2, 0]) ∧
      (∃ st1, nextConflict sampleEnv 0
        (sampleState [sampleConflict 3 4 5 2 0 0, sampleConflict 10 11 12 0 0 0] 0)
          = .ok st1 ∧ st1.choices = [2, 0]) ∧
      (∃ st1, Resolve sampleEnv 0
        (sampleState [sampleConflict 3 4 5 2 0 0, sampleConflict 10 11 12 0 0 0] 0) 0 Local
          = .ok st1 ∧ st1.choices[1]? = some 0) :=
  have w := choice_unchanged sampleEnv 0
    (sampleState [sampleConflict 3 4 5 2 0 0, sampleConflict 10 11 12 0 0 0] 0) 0 1 Up Local
    false (sampleConflict 3 4 5 2 0 0)
  ⟨⟨_, rfl, w.2.2.1 _ rfl⟩, ⟨_, rfl, w.2.2.2.2.1 _ rfl⟩, ⟨_, rfl, w.2.2.2.2.2.1 _ rfl⟩,
    ⟨_, rfl, w.2.2.2.2.2.2 _ rfl (by decide)⟩⟩

/-- C10. Scroll state change: with `c` the conflict at index `i`, `scroll` with `Up`
renders the state in which `c.topPeek` is one less and `c.bottomPeek` one more, with
`Down` the state in which `c.topPeek` is one more and `c.bottomPeek` is as before, and
with any other direction it returns the state as it is, without rendering. Whenever
`scroll` returns, the cursor, the count and every other conflict are unchanged, and
the conflict at `i` differs from `c` at most in `topPeek` and `bottomPeek`. -/
theorem scroll_state_change (env : Env) (st : State) (i : Nat) (d : Int) (c : Conflict)
    (hc : st.conflicts[i]? = some c) :
    (d = Up → scroll env st i d =
        Select env
          (st.setConflict i { c with topPeek := c.topPeek - 1, bottomPeek := c.bottomPeek + 1 })
          i false) ∧
      (d = Down → scroll env st i d =
        Select env (st.setConflict i { c with topPeek := c.topPeek + 1 }) i false) ∧
      (d ≠ Up → d ≠ Down → scroll env st i d = .ok st) ∧
      ∀ st1, scroll env st i d = .ok st1 →
        st1.cur = st.cur ∧ st1.conflictCount = st.conflictCount ∧
        (∀ k, k ≠ i → st1.conflicts[k]? = st.conflicts[k]?) ∧
        ∃ c1, st1.conflicts[i]? = some c1 ∧
          c1 = { c with topPeek := c1.topPeek, bottomPeek := c1.bottomPeek } := by
  refine ⟨?_, ?_, ?_, ?_⟩
  · intro hd
    subst hd
    unfold scroll
    rw [hc]
    rfl
  · intro hd
    subst hd
    unfold scroll
    rw [hc]
    rfl
  · intro h1 h2
    unfold scroll scrollPeek
    rw [hc]
    simp only [if_neg h1, if_neg h2]
  · intro st1 h
    unfold scroll at h
    rw [hc] at h
    simp only [] at h
    cases hp : scrollPeek c d with
    | none =>
      rw [hp] at h
      simp only [Res.ok.injEq] at h
      subst h
      exact ⟨rfl, rfl, fun _ _ => rfl, c, hc, rfl⟩
    | some c0 =>
      rw [hp] at h
      simp only [] at h
      have e0 := scrollPeek_frame c c0 d hp
      have hc0 : (st.setConflict i c0).conflicts[i]? = some c0 :=
        getElem?_set_self st.conflicts i c c0 hc
      obtain ⟨k1, k2, _, c', c2, k4, k5, k6⟩ := Select_frame env _ st1 i false h
      rw [hc0] at k4
      simp only [Option.some.injEq] at k4
      subst k4
      refine ⟨k1, k2, ?_, c2, ?_, sameButPeeks_trans c c0 c2 e0 k6⟩
      · intro k hk
        have hk2 : ¬ i = k := fun e => hk e.symm
        rw [k5]
        simp [State.setConflict, List.getElem?_set, hk2]
      · rw [k5]
        exact getElem?_set_self _ i c0 c2 hc0

/-- Witness for C10: scrolling the second of two conflicts up, with no content view
to clamp the result, leaves peeks `4` and `6` from `5` and `5`. -/
theorem scroll_state_change_witness :
    scroll sampleEnv
        { sampleState [sampleConflict 3 4 5 0 0 0, sampleConflict 10 11 12 0 5 5] 0 with
          views := [] } 1 Up
      = .ok { sampleState [sampleConflict 3 4 5 0 0 0, sampleConflict 10 11 12 0 4 6] 0 with
          views := [] } :=
  ((scroll_state_change sampleEnv
    { sampleState [sampleConflict 3 4 5 0 0 0, sampleConflict 10 11 12 0 5 5] 0 with
      views := [] } 1 Up (sampleConflict 10 11 12 0 5 5) rfl).1 rfl).trans rfl

theorem nextConflict_fuel (env : Env) (fuel : Nat) (st : State) :
    nextConflict env fuel st = nextConflict env 0 st := by
  rw [nextConflict_eq, nextConflict_eq]

theorem Resolve_fuel (env : Env) (fuel : Nat) (st : State) (i : Nat) (version : Int) :
    Resolve env fuel st i version = Resolve env 0 st i version := by
  unfold Resolve
  split
  · rfl
  · exact nextConflict_fuel env fuel _

/-- C2, the code at the failing input: two conflicts, the first resolved and the
second not, cursor on the first. `nextConflict` returns with the cursor still at 0,
the quit signal sent, and the list panel marking row 0 as the rendered conflict. -/
theorem nextConflict_stays_on_resolved (fuel : Nat) :
    ∃ st1, nextConflict sampleEnv fuel
        (sampleState [sampleConflict 3 4 5 1 0 0, sampleConflict 10 11 12 0 0 0] 0) = .ok st1 ∧
      st1.cur = 0 ∧ st1.quits = 1 ∧ st1.choices = [1, 0] ∧
      st1.view "panel"
        = some ⟨"", [.fprintf "g:✅  %s:%d <-\n", .fprintf "r:%d. %s:%d\n"]⟩ := by
  rw [nextConflict_fuel]
  exact ⟨_, rfl, rfl, rfl, rfl, rfl⟩

/-- C3, counterexample: with a single resolved conflict and the cursor on it,
`nextConflict` returns a state whose views differ from those it started from, so a
conflict has been rendered. -/
theorem nextConflict_renders_when_all_resolved :
    ¬ ∀ (env : Env) (fuel : Nat) (st st1 : State), st.conflicts ≠ [] →
        (∀ c ∈ st.conflicts, c.Choice ≠ 0) → 0 ≤ st.cur →
        st.cur < (st.conflicts.length : Int) →
        nextConflict env fuel st = .ok st1 → st1.quits = st.quits + 1 ∧ st1.views = st.views := by
  intro h
  have h1 := h sampleEnv 0 (sampleState [sampleConflict 3 4 5 1 0 0] 0) _ (by decide)
    (by decide) (by decide) (by decide) rfl
  exact absurd h1.2 (by decide)

/-- C3, amended. With every conflict resolved and the cursor in range `0 ≤ cur < N`
(so `N ≥ 1`), `nextConflict` signals termination and then calls `Select` on `conflicts[cur]`
with `showHelp = false`; when that conflict lies inside its file the call returns,
with one more quit signal, the cursor where it was, and that conflict rendered. -/
theorem nextConflict_quits_then_renders (env : Env) (fuel : Nat) (st : State)
    (hall : ∀ c ∈ st.conflicts, c.Choice ≠ 0)
    (h0 : 0 ≤ st.cur) (h1 : st.cur < (st.conflicts.length : Int)) :
    nextConflict env fuel st = Select env (globalQuit st) st.cur.toNat false ∧
      ∃ c, st.conflicts[st.cur.toNat]? = some c ∧ c.Choice ≠ 0 ∧
        (c.InFile env →
          ∃ st1, nextConflict env fuel st = .ok st1 ∧ st1.quits = st.quits + 1 ∧
            st1.cur = st.cur ∧ st1 = renderState env (globalQuit st) st.cur.toNat c false) := by
  have hlt : st.cur.toNat < st.conflicts.length := by omega
  have hget : st.conflicts[st.cur.toNat]? = some st.conflicts[st.cur.toNat] :=
    List.getElem?_eq_getElem hlt
  have heq : nextConflict env fuel st = Select env (globalQuit st) st.cur.toNat false := by
    rw [nextConflict_eq]
    unfold goIndex
    rw [if_pos h0, hget]
    rfl
  refine ⟨heq, _, hget, hall _ (List.getElem_mem hlt), ?_⟩
  intro hin
  have hsel := Select_eq_renderState env (globalQuit st) st.cur.toNat false _ hget hin
  obtain ⟨k1, _, k3, _⟩ := Select_frame env _ _ _ false hsel
  exact ⟨_, heq.trans hsel, k3, k1, rfl⟩

/-- Witness for C3, amended: one resolved conflict of the sample file. -/
theorem nextConflict_quits_then_renders_witness :
    nextConflict sampleEnv 0 (sampleState [sampleConflict 3 4 5 1 0 0] 0)
        = Select sampleEnv (globalQuit (sampleState [sampleConflict 3 4 5 1 0 0] 0)) 0 false ∧
      ∃ c, (sampleState [sampleConflict 3 4 5 1 0 0] 0).conflicts[0]? = some c ∧ c.Choice ≠ 0 ∧
        (c.InFile sampleEnv →
          ∃ st1, nextConflict sampleEnv 0 (sampleState [sampleConflict 3 4 5 1 0 0] 0)
              = .ok st1 ∧ st1.quits = 0 + 1 ∧ st1.cur = 0 ∧
            st1 = renderState sampleEnv (globalQuit (sampleState [sampleConflict 3 4 5 1 0 0] 0))
              0 c false) :=
  nextConflict_quits_then_renders sampleEnv 0 (sampleState [sampleConflict 3 4 5 1 0 0] 0)
    (by decide) (by decide) (by decide)

/-- C4, the code at the failing input: three unresolved conflicts, cursor at 0.
Resolving the current conflict as `Local`, then `Incoming`, then `Local` returns each
time with the cursor still at 0 and one more quit signal, and leaves the choices
`1, 0, 0`: the three resolves all land on the first conflict. -/
theorem resolve_flow_stays_on_first (fuel : Nat) :
    ∃ s1 s2 s3,
      Resolve sampleEnv fuel
        (sampleState [sampleConflict 3 4 5 0 0 0, sampleConflict 8 9 10 0 0 0,
          sampleConflict 14 15 16 0 0 0] 0) 0 Local = .ok s1 ∧
      Resolve sampleEnv fuel s1 s1.cur.toNat Incoming = .ok s2 ∧
      Resolve sampleEnv fuel s2 s2.cur.toNat Local = .ok s3 ∧
      s1.cur = 0 ∧ s2.cur = 0 ∧ s3.cur = 0 ∧
      s1.quits = 1 ∧ s2.quits = 2 ∧ s3.quits = 3 ∧
      s1.choices = [1, 0, 0] ∧ s2.choices = [2, 0, 0] ∧ s3.choices = [1, 0, 0] := by
  simp only [Resolve_fuel sampleEnv fuel]
  exact ⟨_, _, _, rfl, rfl, rfl, rfl, rfl, rfl, rfl, rfl, rfl, rfl, rfl, rfl⟩

/-! ## Totality and the cursor invariant -/

/-- With the cursor on a conflict that lies inside its file, `nextConflict` returns:
the quit signal is sent, the cursor stays, and that conflict is rendered. -/
theorem nextConflict_ok (env : Env) (fuel : Nat) (st : State) (c : Conflict)
    (h0 : 0 ≤ st.cur) (hc : st.conflicts[st.cur.toNat]? = some c) (hin : c.InFile env) :
    nextConflict env fuel st = .ok (renderState env (globalQuit st) st.cur.toNat c false) ∧
      (renderState env (globalQuit st) st.cur.toNat c false).quits = st.quits + 1 ∧
      (renderState env (globalQuit st) st.cur.toNat c false).cur = st.cur := by
  have heq : nextConflict env fuel st = Select env (globalQuit st) st.cur.toNat false := by
    rw [nextConflict_eq]
    unfold goIndex
    rw [if_pos h0, hc]
    rfl
  have hsel := Select_eq_renderState env (globalQuit st) st.cur.toNat false c hc hin
  obtain ⟨k1, _, k3, _⟩ := Select_frame env _ _ _ false hsel
  exact ⟨heq.trans hsel, k3, k1⟩

theorem nextConflict_empty (env : Env) (fuel : Nat) (st : State) (h : st.conflicts = []) :
    nextConflict env fuel st = .fault .indexOutOfRange := by
  rw [nextConflict_eq]
  unfold goIndex
  rw [h]
  split <;> rfl

theorem Select_inv (env : Env) (st st1 : State) (i : Nat) (showHelp : Bool)
    (h : Select env st i showHelp = .ok st1) :
    st1.cur = st.cur ∧ st1.conflictCount = st.conflictCount ∧
      st1.conflicts.length = st.conflicts.length := by
  obtain ⟨k1, k2, _, c, c2, _, k5, _⟩ := Select_frame env st st1 i showHelp h
  refine ⟨k1, k2, ?_⟩
  rw [k5, List.length_set]

theorem nextConflict_inv (env : Env) (fuel : Nat) (st st1 : State)
    (h : nextConflict env fuel st = .ok st1) :
    st1.cur = st.cur ∧ st1.conflictCount = st.conflictCount ∧
      st1.conflicts.length = st.conflicts.length ∧ st1.quits = st.quits + 1 := by
  rw [nextConflict_eq] at h
  cases hg : goIndex st.conflicts st.cur with
  | fault f => rw [hg] at h; cases h
  | ok c =>
    rw [hg] at h
    obtain ⟨k1, k2, k3⟩ := Select_inv env (globalQuit st) st1 _ false h
    obtain ⟨_, _, k4, _⟩ := Select_frame env (globalQuit st) st1 _ false h
    exact ⟨k1, k2, k3, k4⟩

theorem scroll_inv (env : Env) (st st1 : State) (i : Nat) (d : Int)
    (h : scroll env st i d = .ok st1) :
    st1.cur = st.cur ∧ st1.conflictCount = st.conflictCount ∧
      st1.conflicts.length = st.conflicts.length := by
  unfold scroll at h
  cases hc : st.conflicts[i]? with
  | none => rw [hc] at h; cases h
  | some c =>
    rw [hc] at h
    simp only [] at h
    cases hp : scrollPeek c d with
    | none =>
      rw [hp] at h
      simp only [Res.ok.injEq] at h
      subst h
      exact ⟨rfl, rfl, rfl⟩
    | some c0 =>
      rw [hp] at h
      simp only [] at h
      obtain ⟨k1, k2, k3⟩ := Select_inv env _ st1 i false h
      refine ⟨k1, k2, ?_⟩
      rw [k3]
      simp only [State.setConflict, List.length_set]

theorem cursorInRange_of_frame (st st1 : State) (h : st.CursorInRange)
    (k1 : st1.cur = st.cur) (k2 : st1.conflictCount = st.conflictCount)
    (k3 : st1.conflicts.length = st.conflicts.length) : st1.CursorInRange := by
  obtain ⟨a, b, c, d⟩ := h
  refine ⟨?_, ?_, ?_, ?_⟩
  · intro e
    rw [e] at k3
    exact a (List.length_eq_zero.mp k3.symm)
  · rw [k2, k3]; exact b
  · rw [k1]; exact c
  · rw [k1, k3]; exact d

/-- C11, counterexample: on the empty navigator (`conflictCount = 0`, `cur = 0`)
`nextConflict` does not return; the index expression `conflicts[cur]` is out of
range. -/
theorem nextConflict_fails_on_empty :
    ¬ ∀ (env : Env) (fuel : Nat) (st : State), st.conflicts = [] → st.conflictCount = 0 →
        st.cur = 0 → ∃ st1, nextConflict env fuel st = .ok st1 ∧ st1.quits = st.quits + 1 := by
  intro h
  obtain ⟨st1, h1, _⟩ := h sampleEnv 0 (sampleState [] 0) rfl rfl rfl
  rw [nextConflict_empty sampleEnv 0 _ rfl] at h1
  cases h1

/-- C11, amended. For every navigator state whose cursor satisfies
`0 ≤ cur < len(conflicts)` and whose conflict at the cursor lies inside its file
(`1 ≤ Start ≤ End ≤ len(lines)`), `nextConflict` completes without error: given enough
fuel for its scan loop it returns a state, with no out-of-range access to the
conflict sequence or to the file lines. -/
theorem nextConflict_total_with_cursor_in_range (env : Env) (st : State) (c : Conflict)
    (h0 : 0 ≤ st.cur) (h1 : st.cur < (st.conflicts.length : Int))
    (hc : st.conflicts[st.cur.toNat]? = some c) (hin : c.InFile env) :
    ∃ n, ∀ fuel, n ≤ fuel → ∃ st1, nextConflict env fuel st = .ok st1 := by
  have _hlt : st.cur.toNat < st.conflicts.length := by omega
  exact ⟨0, fun fuel _ => ⟨_, (nextConflict_ok env fuel st c h0 hc hin).1⟩⟩

/-- Witness for C11, amended: one unresolved conflict of the sample file. -/
theorem nextConflict_total_with_cursor_in_range_witness :
    ∃ n, ∀ fuel, n ≤ fuel →
      ∃ st1, nextConflict sampleEnv fuel (sampleState [sampleConflict 3 4 5 0 0 0] 0) = .ok st1 :=
  nextConflict_total_with_cursor_in_range sampleEnv (sampleState [sampleConflict 3 4 5 0 0 0] 0)
    (sampleConflict 3 4 5 0 0 0) (by decide) (by decide) rfl (by decide)

/-- C12. Viewport has no error case: for a conflict with
`1 ≤ Start ≤ End ≤ len(lines)` and any integer peeks, `getPaddingLines` returns, the
bounds of `lines[start-topPeek : start]` and of `lines[end : end+bottomPeek]` taken
with the clamped peeks are inside the file's line sequence, `topPadding` is empty
when `Start = 1`, and `bottomPadding` is empty when `End = len(lines)`. -/
theorem getPaddingLines_no_error (env : Env) (c : Conflict)
    (h1 : 1 ≤ c.Start) (h2 : c.Start ≤ c.End)
    (h3 : c.End ≤ ((env.fileLines c.AbsolutePath).length : Int)) :
    ∃ c1 top bottom, c.getPaddingLines env = .ok (c1, top, bottom) ∧
      (0 ≤ c.Start - 1 - c1.topPeek ∧ c.Start - 1 - c1.topPeek ≤ c.Start - 1 ∧
        c.Start - 1 ≤ ((env.fileLines c.AbsolutePath).length : Int)) ∧
      (0 ≤ c.End ∧ c.End ≤ c.End + c1.bottomPeek ∧
        c.End + c1.bottomPeek ≤ ((env.fileLines c.AbsolutePath).length : Int)) ∧
      (∃ above, goSlice (env.fileLines c.AbsolutePath) (c.Start - 1 - c1.topPeek) (c.Start - 1)
        = .ok above) ∧
      (∃ below, goSlice (env.fileLines c.AbsolutePath) c.End (c.End + c1.bottomPeek)
        = .ok below) ∧
      (c.Start = 1 → top = []) ∧
      (c.End = ((env.fileLines c.AbsolutePath).length : Int) → bottom = []) := by
  have hin : c.InFile env := ⟨h1, h2, h3⟩
  obtain ⟨b1, b2, b3, b4⟩ := clamped_bounds env c hin
  have f1 : (c.clamped env).Start = c.Start := by rw [clamped_frame]
  have f2 : (c.clamped env).End = c.End := by rw [clamped_frame]
  have f3 : (c.clamped env).AbsolutePath = c.AbsolutePath := by rw [clamped_frame]
  have r1 : 0 ≤ c.Start - 1 - (c.clamped env).topPeek ∧
      c.Start - 1 - (c.clamped env).topPeek ≤ c.Start - 1 ∧
      c.Start - 1 ≤ ((env.fileLines c.AbsolutePath).length : Int) := by omega
  have r2 : 0 ≤ c.End ∧ c.End ≤ c.End + (c.clamped env).bottomPeek ∧
      c.End + (c.clamped env).bottomPeek ≤ ((env.fileLines c.AbsolutePath).length : Int) := by
    omega
  refine ⟨_, _, _, getPaddingLines_eq env c hin, r1, r2, ?_, ?_, ?_, ?_⟩
  · exact ⟨_, by unfold goSlice; rw [if_pos r1]⟩
  · exact ⟨_, by unfold goSlice; rw [if_pos r2]⟩
  · intro hs
    have hz : (c.clamped env).topPeek = 0 := by omega
    simp [Conflict.topLines, hz]
  · intro he
    have hz : (c.clamped env).bottomPeek = 0 := by omega
    simp [Conflict.bottomLines, hz]

/-- Witness for C12: a conflict that spans the whole sample file, with large peeks. -/
theorem getPaddingLines_no_error_witness :
    ∃ c1 top bottom, (sampleConflict 1 10 20 0 7 7).getPaddingLines sampleEnv
        = .ok (c1, top, bottom) ∧ top = [] ∧ bottom = [] := by
  obtain ⟨c1, top, bottom, h, _, _, _, _, ht, hb⟩ :=
    getPaddingLines_no_error sampleEnv (sampleConflict 1 10 20 0 7 7) (by decide) (by decide)
      (by decide)
  exact ⟨c1, top, bottom, h, ht rfl, hb rfl⟩

/-- C13. Cursor invariant: if the sequence is non-empty,
`conflictCount = len(conflicts)` and `0 ≤ cur < len(conflicts)` before `Resolve`,
`nextConflict`, `scroll`, `toggleDiff` or `Select`, the same holds of the state the
operation returns. -/
theorem cursor_invariant (env : Env) (fuel : Nat) (st : State) (i : Nat) (d version : Int)
    (showHelp : Bool) (h : st.CursorInRange) :
    (∀ st1, Resolve env fuel st i version = .ok st1 → st1.CursorInRange) ∧
      (∀ st1, nextConflict env fuel st = .ok st1 → st1.CursorInRange) ∧
      (∀ st1, scroll env st i d = .ok st1 → st1.CursorInRange) ∧
      (toggleDiffAt st i).CursorInRange ∧
      (∀ st1, Select env st i showHelp = .ok st1 → st1.CursorInRange) := by
  refine ⟨?_, ?_, ?_, ?_, ?_⟩
  · intro st1 hr
    unfold Resolve at hr
    cases hc : st.conflicts[i]? with
    | none => rw [hc] at hr; cases hr
    | some c =>
      rw [hc] at hr
      simp only [] at hr
      obtain ⟨k1, k2, k3, _⟩ := nextConflict_inv env fuel _ st1 hr
      refine cursorInRange_of_frame st st1 h k1 k2 ?_
      rw [k3]
      simp only [State.setConflict, List.length_set]
  · intro st1 hr
    obtain ⟨k1, k2, k3, _⟩ := nextConflict_inv env fuel st st1 hr
    exact cursorInRange_of_frame st st1 h k1 k2 k3
  · intro st1 hr
    obtain ⟨k1, k2, k3⟩ := scroll_inv env st st1 i d hr
    exact cursorInRange_of_frame st st1 h k1 k2 k3
  · refine cursorInRange_of_frame st _ h ?_ ?_ ?_
    all_goals
      unfold toggleDiffAt
      split
      · rfl
      · simp only [State.setConflict, List.length_set]
  · intro st1 hr
    obtain ⟨k1, k2, k3⟩ := Select_inv env st st1 i showHelp hr
    exact cursorInRange_of_frame st st1 h k1 k2 k3

/-- Witness for C13: two conflicts of the sample file, cursor on the second, each
operation applied to the first or at the cursor. -/
theorem cursor_invariant_witness :
    (∃ st1, Resolve sampleEnv 0
        (sampleState [sampleConflict 3 4 5 0 0 0, sampleConflict 10 11 12 0 0 0] 1) 0 Local
          = .ok st1 ∧ st1.CursorInRange) ∧
      (∃ st1, nextConflict sampleEnv 0
        (sampleState [sampleConflict 3 4 5 0 0 0, sampleConflict 10 11 12 0 0 0] 1)
          = .ok st1 ∧ st1.CursorInRange) ∧
      (∃ st1, scroll sampleEnv
        (sampleState [sampleConflict 3 4 5 0 0 0, sampleConflict 10 11 12 0 0 0] 1) 0 Down
          = .ok st1 ∧ st1.CursorInRange) ∧
      (∃ st1, Select sampleEnv
        (sampleState [sampleConflict 3 4 5 0 0 0, sampleConflict 10 11 12 0 0 0] 1) 0 true
          = .ok st1 ∧ st1.CursorInRange) :=
  have w := cursor_invariant sampleEnv 0
    (sampleState [sampleConflict 3 4 5 0 0 0, sampleConflict 10 11 12 0 0 0] 1) 0 Down Local
    true (by decide)
  ⟨⟨_, rfl, w.1 _ rfl⟩, ⟨_, rfl, w.2.1 _ rfl⟩, ⟨_, rfl, w.2.2.1 _ rfl⟩,
    ⟨_, rfl, w.2.2.2.2 _ rfl⟩⟩

/-! ## `nextConflict` as it is -/

theorem withChoices_getElem? (st : State) (f : Nat → Int) (k : Nat) :
    (st.withChoices f).conflicts[k]?
      = (st.conflicts[k]?).map (fun c => { c with Choice := f k }) := by
  unfold State.withChoices
  simp only [List.getElem?_map, List.getElem?_enum, Option.map_map]
  cases st.conflicts[k]? <;> rfl

/-- C15. Single-conflict edge case: with exactly one conflict and `cur = 0`,
whatever its `Choice`, `nextConflict` signals session termination and then renders
that conflict; whenever it returns the quit signal has been sent and `cur = 0`, and
it does return when the conflict lies inside its file. -/
theorem nextConflict_single_conflict (env : Env) (fuel : Nat) (st : State) (c : Conflict)
    (hs : st.conflicts = [c]) (h0 : st.cur = 0) :
    nextConflict env fuel st = Select env (globalQuit st) 0 false ∧
      (∀ st1, nextConflict env fuel st = .ok st1 → st1.quits = st.quits + 1 ∧ st1.cur = 0) ∧
      (c.InFile env →
        ∃ st1, nextConflict env fuel st = .ok st1 ∧ st1.quits = st.quits + 1 ∧ st1.cur = 0) := by
  have hc : st.conflicts[st.cur.toNat]? = some c := by rw [hs, h0]; rfl
  have heq : nextConflict env fuel st = Select env (globalQuit st) 0 false := by
    rw [nextConflict_eq]
    unfold goIndex
    rw [if_pos (by omega), hc, h0]
    rfl
  refine ⟨heq, ?_, ?_⟩
  · intro st1 h
    obtain ⟨k1, _, _, k4⟩ := nextConflict_inv env fuel st st1 h
    exact ⟨k4, k1.trans h0⟩
  · intro hin
    obtain ⟨k1, k2, k3⟩ := nextConflict_ok env fuel st c (by omega) hc hin
    exact ⟨_, k1, k2, k3.trans h0⟩

/-- Witness for C15: a single conflict of the sample file, unresolved in one
navigator and resolved in the other; both runs quit with the cursor at 0. -/
theorem nextConflict_single_conflict_witness :
    (∃ st1, nextConflict sampleEnv 0 (sampleState [sampleConflict 3 4 5 0 0 0] 0) = .ok st1 ∧
        st1.quits = 0 + 1 ∧ st1.cur = 0) ∧
      ∃ st1, nextConflict sampleEnv 0 (sampleState [sampleConflict 3 4 5 2 0 0] 0) = .ok st1 ∧
        st1.quits = 0 + 1 ∧ st1.cur = 0 :=
  ⟨(nextConflict_single_conflict sampleEnv 0 (sampleState [sampleConflict 3 4 5 0 0 0] 0)
      (sampleConflict 3 4 5 0 0 0) rfl rfl).2.2 (by decide),
    (nextConflict_single_conflict sampleEnv 0 (sampleState [sampleConflict 3 4 5 2 0 0] 0)
      (sampleConflict 3 4 5 2 0 0) rfl rfl).2.2 (by decide)⟩

/-! ## What `Select` writes -/

theorem selectList_view_some (env : Env) (st : State) (c : Conflict) (h : Bool) (m : String)
    (v : View) (hv : st.view m = some v) :
    ∃ v1, (selectList env st c h).view m = some v1 := by
  unfold selectList
  split
  · exact ⟨v, hv⟩
  · rw [view_modifyView, hv]
    exact ⟨_, rfl⟩

theorem renderState_views (env : Env) (st : State) (i : Nat) (c : Conflict) (h : Bool)
    (vC vF : View) (hC : st.view env.Current = some vC) (hF : st.view env.Foreign = some vF) :
    (renderState env st i c h).view env.Foreign
        = some ⟨(c.clamped env).ForeignName ++ " (Incoming Change) ",
            [.printLines ((c.clamped env).topLines env),
             .printLines (c.clamped env).ColoredForeignLines,
             .printLines ((c.clamped env).bottomLines env)]⟩ ∧
      (env.Current ≠ env.Foreign →
        (renderState env st i c h).view env.Current
          = some ⟨c.CurrentName ++ " (Current Change) ",
              [.printLines ((c.clamped env).topLines env),
               .printLines (currentBody env (c.clamped env)),
               .printLines ((c.clamped env).bottomLines env)]⟩) := by
  obtain ⟨v0, h0⟩ := selectList_view_some env st c h env.Current vC hC
  obtain ⟨w0, h1⟩ := selectList_view_some env st c h env.Foreign vF hF
  unfold renderState
  simp only []
  generalize selectList env st c h = s0 at h0 h1
  constructor
  · simp only [h0, h1, view_modifyView, view_setConflict, Option.map, if_true,
      panelBody, View.Clear, View.write, List.nil_append, List.cons_append]
  · intro hne
    have hne2 : ¬ env.Foreign = env.Current := fun e => hne e.symm
    simp only [h0, h1, view_modifyView, view_setConflict, Option.map, if_true,
      panelBody, View.Clear, View.write, List.nil_append, List.cons_append, if_neg hne,
      if_neg hne2]

theorem clamped_toggleDiff (env : Env) (c : Conflict) :
    c.toggleDiff.clamped env = (c.clamped env).toggleDiff := by
  unfold Conflict.clamped Conflict.clampBottom Conflict.clampTop Conflict.toggleDiff
  simp only []
  split_ifs <;> rfl

theorem toggleDiffAt_view (st : State) (i : Nat) (m : String) :
    (toggleDiffAt st i).view m = st.view m := by
  unfold toggleDiffAt
  split <;> rfl

/-- C14. Panel bodies and the diff view: for a conflict with
`1 ≤ Start ≤ End ≤ len(lines)` and both content views present, `Select` returns; with
`top` and `bottom` the paddings `getPaddingLines` returns, the Foreign view holds the
title `ForeignName + " (Incoming Change) "` and the three `printLines` writes `top`,
`ColoredForeignLines`, `bottom`; the Current view (a view other than Foreign) holds
the title `CurrentName + " (Current Change) "` and the writes `top`, then the diff of
`CurrentLines` and `ForeignLines` if `displayDiff` and `ColoredCurrentLines`
otherwise, then `bottom`; and the Foreign view is the same when `displayDiff` is
flipped. -/
theorem Select_panel_bodies (env : Env) (st : State) (i : Nat) (showHelp : Bool)
    (c : Conflict) (vC vF : View)
    (hc : st.conflicts[i]? = some c)
    (h1 : 1 ≤ c.Start) (h2 : c.Start ≤ c.End)
    (h3 : c.End ≤ ((env.fileLines c.AbsolutePath).length : Int))
    (hC : st.view env.Current = some vC) (hF : st.view env.Foreign = some vF) :
    ∃ st1 c1 top bottom, Select env st i showHelp = .ok st1 ∧
      c.getPaddingLines env = .ok (c1, top, bottom) ∧
      st1.view env.Foreign
        = some ⟨c.ForeignName ++ " (Incoming Change) ",
            [.printLines top, .printLines c.ColoredForeignLines, .printLines bottom]⟩ ∧
      (env.Current ≠ env.Foreign →
        st1.view env.Current
          = some ⟨c.CurrentName ++ " (Current Change) ",
              [.printLines top,
               .printLines (if c.displayDiff then env.diff c.CurrentLines c.ForeignLines
                 else c.ColoredCurrentLines),
               .printLines bottom]⟩) ∧
      ∃ st2, Select env (toggleDiffAt st i) i showHelp = .ok st2 ∧
        st2.view env.Foreign = st1.view env.Foreign := by
  have hin : c.InFile env := ⟨h1, h2, h3⟩
  have hin2 : c.toggleDiff.InFile env := hin
  have hc2 : (toggleDiffAt st i).conflicts[i]? = some c.toggleDiff := by
    unfold toggleDiffAt
    rw [hc]
    exact getElem?_set_self st.conflicts i c _ hc
  have hC2 : (toggleDiffAt st i).view env.Current = some vC := by rw [toggleDiffAt_view, hC]
  have hF2 : (toggleDiffAt st i).view env.Foreign = some vF := by rw [toggleDiffAt_view, hF]
  obtain ⟨a1, a2⟩ := renderState_views env st i c showHelp vC vF hC hF
  obtain ⟨b1, _⟩ := renderState_views env (toggleDiffAt st i) i c.toggleDiff showHelp vC vF hC2 hF2
  have f1 : (c.clamped env).ForeignName = c.ForeignName := by rw [clamped_frame]
  have f2 : (c.clamped env).ColoredForeignLines = c.ColoredForeignLines := by
    rw [clamped_frame]
  have f3 : currentBody env (c.clamped env)
      = (if c.displayDiff then env.diff c.CurrentLines c.ForeignLines
          else c.ColoredCurrentLines) := by
    unfold currentBody
    rw [clamped_frame]
  refine ⟨_, _, _, _, Select_eq_renderState env st i showHelp c hc hin,
    getPaddingLines_eq env c hin, ?_, ?_,
    _, Select_eq_renderState env _ i showHelp c.toggleDiff hc2 hin2, ?_⟩
  · rw [a1, f1, f2]
  · intro hne
    rw [a2 hne, f3]
  · rw [a1, b1, clamped_toggleDiff]
    rfl

/-- Witness for C14: the conflict at lines 10..12 of the sample file with peeks 2 and
1, rendered in the three sample views. -/
theorem Select_panel_bodies_witness :
    ∃ st1, Select sampleEnv (sampleState [sampleConflict 10 11 12 0 2 1] 0) 0 false = .ok st1 ∧
      st1.view "foreign"
        = some ⟨"topic (Incoming Change) ",
            [.printLines ["k:l8", "k:l9"], .printLines ["B"], .printLines ["k:l13"]]⟩ ∧
      st1.view "current"
        = some ⟨"HEAD (Current Change) ",
            [.printLines ["k:l8", "k:l9"], .printLines ["A"], .printLines ["k:l13"]]⟩ := by
  obtain ⟨st1, c1, top, bottom, k1, k2, k3, k4, _⟩ :=
    Select_panel_bodies sampleEnv (sampleState [sampleConflict 10 11 12 0 2 1] 0) 0 false
      (sampleConflict 10 11 12 0 2 1) ⟨"", []⟩ ⟨"", []⟩ rfl (by decide) (by decide) (by decide)
      rfl rfl
  have e : (sampleConflict 10 11 12 0 2 1).getPaddingLines sampleEnv
      = .ok (sampleConflict 10 11 12 0 2 1, ["k:l8", "k:l9"], ["k:l13"]) := by decide
  rw [e] at k2
  simp only [Res.ok.injEq, Prod.mk.injEq] at k2
  obtain ⟨_, ht, hb⟩ := k2
  subst ht
  subst hb
  exact ⟨st1, k1, k3, k4 (by decide)⟩

/-! ## The conflict-list panel -/

theorem append_marker_ne (a : String) : a ++ " <-\n" ≠ a ++ "\n" := by
  intro h
  have h2 := congrArg String.data h
  simp only [String.data_append] at h2
  have h3 := List.append_cancel_left h2
  exact absurd h3 (by decide)

theorem isEqual_iff (d c : Conflict) :
    d.isEqual c = true ↔ d.FileName = c.FileName ∧ d.Start = c.Start := by
  unfold Conflict.isEqual
  simp

theorem listRow_eq (env : Env) (c : Conflict) (idx : Nat) (d : Conflict) :
    listRow env c idx d
      = .fprintf (rowLabel env idx d ++
          if d.FileName = c.FileName ∧ d.Start = c.Start then " <-\n" else "\n") := by
  unfold listRow rowLabel
  simp only []
  by_cases he : d.isEqual c = true
  · rw [if_pos he, if_pos ((isEqual_iff d c).mp he)]
  · rw [if_neg he, if_neg (fun e => he ((isEqual_iff d c).mpr e))]

theorem listRow_marked_iff (env : Env) (c : Conflict) (idx : Nat) (d : Conflict) :
    listRow env c idx d = .fprintf (rowLabel env idx d ++ " <-\n")
      ↔ d.FileName = c.FileName ∧ d.Start = c.Start := by
  rw [listRow_eq]
  constructor
  · intro h
    by_contra hn
    rw [if_neg hn] at h
    simp only [Write.fprintf.injEq] at h
    exact append_marker_ne _ h.symm
  · intro h
    rw [if_pos h]

theorem view_modifyView_ne (st : State) (n m : String) (f : View → View) (h : m ≠ n) :
    (st.modifyView n f).view m = st.view m := by
  rw [view_modifyView]
  cases st.view m with
  | none => rfl
  | some v => simp only [Option.map, if_neg h]

/-- The second update function of `Select` writes to no view other than the two
content views. -/
theorem selectPanels_view_other (env : Env) (s0 st1 : State) (i : Nat) (m : String)
    (h : selectPanels env s0 i = .ok st1) (hC : m ≠ env.Current) (hF : m ≠ env.Foreign) :
    st1.view m = s0.view m := by
  unfold selectPanels at h
  cases hc : s0.conflicts[i]? with
  | none => rw [hc] at h; cases h
  | some c =>
    rw [hc] at h
    simp only [] at h
    split at h
    · simp only [Res.ok.injEq] at h
      rw [← h]
    · cases g1 : c.getPaddingLines env with
      | fault f => rw [g1] at h; cases h
      | ok r =>
        rw [g1] at h
        simp only [Res.bind] at h
        split at h
        · simp only [Res.ok.injEq] at h
          rw [← h]
          simp only [view_modifyView_ne _ _ _ _ hC, view_setConflict]
        · cases g2 : r.1.getPaddingLines env with
          | fault f => rw [g2] at h; cases h
          | ok r2 =>
            rw [g2] at h
            simp only [Res.ok.injEq] at h
            rw [← h]
            simp only [view_modifyView_ne _ _ _ _ hC, view_modifyView_ne _ _ _ _ hF,
              view_setConflict]

/-- C16, counterexample: two conflicts with the same `FileName` and `Start` in
different files; rendering the first one marks both rows of the list panel. -/
theorem Select_marks_two_rows :
    (¬ ∀ (env : Env) (cs : List Conflict) (i k : Nat) (c d : Conflict),
        cs[i]? = some c → cs[k]? = some d →
        (listRow env c k d = .fprintf (rowLabel env k d ++ " <-\n") ↔ k = i)) ∧
      ∃ st1, Select sampleEnv
          (sampleState [sampleConflict 3 4 5 0 0 0,
            { sampleConflict 3 4 5 0 0 0 with AbsolutePath := "/g" }] 0) 0 false = .ok st1 ∧
        st1.view "panel"
          = some ⟨"", [.fprintf "r:%d. %s:%d <-\n", .fprintf "r:%d. %s:%d <-\n"]⟩ := by
  constructor
  · intro h
    have h1 := h sampleEnv
      [sampleConflict 3 4 5 0 0 0, { sampleConflict 3 4 5 0 0 0 with AbsolutePath := "/g" }]
      0 1 (sampleConflict 3 4 5 0 0 0)
      { sampleConflict 3 4 5 0 0 0 with AbsolutePath := "/g" } rfl rfl
    exact absurd (h1.mp rfl) (by decide)
  · exact ⟨_, rfl, rfl⟩

/-- C16, amended. With the list view present, the first update function of `Select`
leaves in it exactly one row per conflict, in sequence order, followed by the help
footer when `showHelp` is set; row `k` is the resolved marker when
`conflicts[k].Choice ≠ 0` and the number `k+1` otherwise, then `FileName:Start`, then
`" <-"` exactly when `conflicts[k]` has the `FileName` and the `Start` of the conflict
`c` being rendered (`isEqual`). So when no other conflict shares the `FileName` and
`Start` of `c`, exactly the row of `c` is marked. When the list view is neither of
the content views, this is what the list view holds when `Select` returns. -/
theorem Select_list_panel (env : Env) (st : State) (i : Nat) (showHelp : Bool)
    (c : Conflict) (vP : View)
    (hc : st.conflicts[i]? = some c) (hP : st.view env.Panel = some vP) :
    (selectList env st c showHelp).view env.Panel
        = some ⟨vP.Title,
            st.conflicts.enum.map (fun p => Write.fprintf (rowLabel env p.1 p.2 ++
                if p.2.FileName = c.FileName ∧ p.2.Start = c.Start then " <-\n" else "\n"))
              ++ (if showHelp then [Write.printHelp] else [])⟩ ∧
      (st.conflicts.enum.map (fun p => listRow env c p.1 p.2)).length = st.conflicts.length ∧
      (∀ k d, st.conflicts[k]? = some d →
        (st.conflicts.enum.map (fun p => listRow env c p.1 p.2))[k]?
            = some (listRow env c k d) ∧
        rowLabel env k d
          = (if d.Choice ≠ 0 then
              env.Green env.Regular "✅  %s:%d" [.str d.FileName, .int d.Start]
            else
              env.Red env.Regular "%d. %s:%d"
                [.int ((k : Int) + 1), .str d.FileName, .int d.Start]) ∧
        (listRow env c k d = .fprintf (rowLabel env k d ++ " <-\n")
          ↔ d.FileName = c.FileName ∧ d.Start = c.Start)) ∧
      ((∀ k d, st.conflicts[k]? = some d → d.FileName = c.FileName → d.Start = c.Start →
          k = i) →
        ∀ k d, st.conflicts[k]? = some d →
          (listRow env c k d = .fprintf (rowLabel env k d ++ " <-\n") ↔ k = i)) ∧
      (env.Panel ≠ env.Current → env.Panel ≠ env.Foreign →
        ∀ st1, Select env st i showHelp = .ok st1 →
          st1.view env.Panel = (selectList env st c showHelp).view env.Panel) := by
  refine ⟨?_, ?_, ?_, ?_, ?_⟩
  · unfold selectList
    rw [hP]
    simp only []
    rw [view_modifyView, hP]
    simp only [Option.map, if_true, listPanelView_eq, listRow_eq]
  · simp only [List.length_map, List.enum_length]
  · intro k d hk
    refine ⟨?_, rfl, listRow_marked_iff env c k d⟩
    simp only [List.getElem?_map, List.getElem?_enum, hk, Option.map]
  · intro huniq k d hk
    rw [listRow_marked_iff]
    constructor
    · intro h
      exact huniq k d hk h.1 h.2
    · intro h
      subst h
      rw [hc] at hk
      simp only [Option.some.injEq] at hk
      subst hk
      exact ⟨rfl, rfl⟩
  · intro h1 h2 st1 h
    unfold Select at h
    rw [hc] at h
    exact selectPanels_view_other env _ st1 i env.Panel h h1 h2

/-- Witness for C16, amended: two conflicts of the sample file, the first resolved,
the second rendered with the help footer. -/
theorem Select_list_panel_witness :
    (selectList sampleEnv
        (sampleState [sampleConflict 3 4 5 1 0 0, sampleConflict 10 11 12 0 0 0] 1)
        (sampleConflict 10 11 12 0 0 0) true).view "panel"
      = some ⟨"", [.fprintf "g:✅  %s:%d\n", .fprintf "r:%d. %s:%d <-\n", .printHelp]⟩ :=
  ((Select_list_panel sampleEnv
    (sampleState [sampleConflict 3 4 5 1 0 0, sampleConflict 10 11 12 0 0 0] 1) 1 true
    (sampleConflict 10 11 12 0 0 0) ⟨"", []⟩ rfl rfl).1).trans (by decide)

/-! ## Scrolling back and forth -/

theorem clamped_of_inRange (env : Env) (c : Conflict) (hin : c.InFile env)
    (h1 : 0 ≤ c.topPeek) (h2 : c.topPeek ≤ c.Start - 1) (h3 : 0 ≤ c.bottomPeek)
    (h4 : c.bottomPeek ≤ ((env.fileLines c.AbsolutePath).length : Int) - c.End) :
    c.clamped env = c := by
  rw [clamped_eq env c hin]
  have e1 : min (max c.topPeek 0) (c.Start - 1) = c.topPeek := by omega
  have e2 : min (max c.bottomPeek 0) (((env.fileLines c.AbsolutePath).length : Int) - c.End)
      = c.bottomPeek := by omega
  rw [e1, e2]

theorem renderState_conflicts (env : Env) (st : State) (i : Nat) (c : Conflict) (h : Bool) :
    (renderState env st i c h).conflicts = st.conflicts ∨
      (renderState env st i c h).conflicts = st.conflicts.set i (c.clamped env) := by
  have hs := selectList_conflicts env st c h
  unfold renderState
  simp only []
  generalize selectList env st c h = s0 at hs
  split
  · exact Or.inl hs
  · right
    split <;> simp only [State.modifyView, State.setConflict, hs, List.set_set]

/-- A `scroll` whose adjusted peeks are already in range stores exactly them. -/
theorem scroll_in_range (env : Env) (st : State) (i : Nat) (d : Int) (c c0 : Conflict)
    (hc : st.conflicts[i]? = some c) (hp : scrollPeek c d = some c0) (hin : c0.InFile env)
    (hr : c0.clamped env = c0) :
    ∃ st1, scroll env st i d = .ok st1 ∧ st1.conflicts[i]? = some c0 := by
  have hc0 : (st.setConflict i c0).conflicts[i]? = some c0 :=
    getElem?_set_self st.conflicts i c c0 hc
  have hsel := Select_eq_renderState env (st.setConflict i c0) i false c0 hc0 hin
  refine ⟨renderState env (st.setConflict i c0) i c0 false, ?_, ?_⟩
  · unfold scroll
    rw [hc]
    simp only [hp]
    exact hsel
  · rcases renderState_conflicts env (st.setConflict i c0) i c0 false with e | e
    · rw [e]; exact hc0
    · rw [e, hr]
      exact getElem?_set_self _ i c0 c0 hc0

/-- C17, counterexample: the conflict at lines 10..12 of the sample file with peeks 5
and 5; after `scroll(Up)` and `scroll(Down)` the stored `bottomPeek` is 6. -/
theorem scroll_up_down_not_restored :
    ¬ ∀ (env : Env) (st : State) (i : Nat) (c : Conflict),
        st.conflicts[i]? = some c → 1 ≤ c.Start → c.Start ≤ c.End →
        c.End ≤ ((env.fileLines c.AbsolutePath).length : Int) →
        0 < c.topPeek → c.topPeek < c.Start - 1 → 0 < c.bottomPeek →
        c.bottomPeek < ((env.fileLines c.AbsolutePath).length : Int) - c.End →
        ∃ st2 c2, scrolls env st i [Up, Down] = .ok st2 ∧ st2.conflicts[i]? = some c2 ∧
          c2.topPeek = c.topPeek ∧ c2.bottomPeek = c.bottomPeek := by
  intro h
  obtain ⟨st2, c2, e1, e2, _, e4⟩ :=
    h sampleEnv (sampleState [sampleConflict 10 11 12 0 5 5] 0) 0 (sampleConflict 10 11 12 0 5 5)
      rfl (by decide) (by decide) (by decide) (by decide) (by decide) (by decide) (by decide)
  have e : scrolls sampleEnv (sampleState [sampleConflict 10 11 12 0 5 5] 0) 0 [Up, Down]
      = .ok (renderState sampleEnv (sampleState [sampleConflict 10 11 12 0 5 6] 0) 0
          (sampleConflict 10 11 12 0 5 6) false) := by decide
  rw [e] at e1
  simp only [Res.ok.injEq] at e1
  subst e1
  have e5 : (renderState sampleEnv (sampleState [sampleConflict 10 11 12 0 5 6] 0) 0
      (sampleConflict 10 11 12 0 5 6) false).conflicts[0]?
        = some (sampleConflict 10 11 12 0 5 6) := by decide
  rw [e5] at e2
  simp only [Option.some.injEq] at e2
  subst e2
  exact absurd e4 (by decide)

/-- C17, amended. For a conflict with `1 ≤ Start ≤ End ≤ len(lines)` whose peeks are
strictly inside their clamp ranges, `scroll(Up)` then `scroll(Down)`, and likewise
`scroll(Down)` then `scroll(Up)`, each with its render, return and leave the conflict
with `topPeek` as before the pair, `bottomPeek` one more than before, and every other
field as it was. -/
theorem scroll_pair_restores_topPeek (env : Env) (st : State) (i : Nat) (c : Conflict)
    (hc : st.conflicts[i]? = some c)
    (h1 : 1 ≤ c.Start) (h2 : c.Start ≤ c.End)
    (h3 : c.End ≤ ((env.fileLines c.AbsolutePath).length : Int))
    (ht : 0 < c.topPeek) (ht2 : c.topPeek < c.Start - 1) (hb : 0 < c.bottomPeek)
    (hb2 : c.bottomPeek < ((env.fileLines c.AbsolutePath).length : Int) - c.End) :
    (∃ st2, scrolls env st i [Up, Down] = .ok st2 ∧
        st2.conflicts[i]? = some { c with bottomPeek := c.bottomPeek + 1 }) ∧
      ∃ st2, scrolls env st i [Down, Up] = .ok st2 ∧
        st2.conflicts[i]? = some { c with bottomPeek := c.bottomPeek + 1 } := by
  have hin : c.InFile env := ⟨h1, h2, h3⟩
  have hU : ∀ x : Conflict, scrollPeek x Up
      = some { x with topPeek := x.topPeek - 1, bottomPeek := x.bottomPeek + 1 } := fun _ => rfl
  have hD : ∀ x : Conflict, scrollPeek x Down = some { x with topPeek := x.topPeek + 1 } :=
    fun _ => rfl
  have key : ∀ (p q : Int), 0 ≤ p → p ≤ c.Start - 1 → 0 ≤ q →
      q ≤ ((env.fileLines c.AbsolutePath).length : Int) - c.End →
      ({ c with topPeek := p, bottomPeek := q } : Conflict).InFile env ∧
        ({ c with topPeek := p, bottomPeek := q } : Conflict).clamped env
          = { c with topPeek := p, bottomPeek := q } := by
    intro p q a1 a2 a3 a4
    have hin0 : ({ c with topPeek := p, bottomPeek := q } : Conflict).InFile env := hin
    exact ⟨hin0, clamped_of_inRange env _ hin0 a1 a2 a3 a4⟩
  constructor
  · obtain ⟨k1, k2⟩ := key (c.topPeek - 1) (c.bottomPeek + 1) (by omega) (by omega) (by omega)
      (by omega)
    obtain ⟨s1, e1, g1⟩ := scroll_in_range env st i Up c _ hc (hU c) k1 k2
    obtain ⟨k3, k4⟩ := key (c.topPeek - 1 + 1) (c.bottomPeek + 1) (by omega) (by omega)
      (by omega) (by omega)
    obtain ⟨s2, e2, g2⟩ := scroll_in_range env s1 i Down _ _ g1 (hD _) k3 k4
    refine ⟨s2, ?_, ?_⟩
    · simp only [scrolls, e1, e2, Res.bind]
    · rw [g2]
      have e : c.topPeek - 1 + 1 = c.topPeek := by omega
      simp only [e]
  · obtain ⟨k1, k2⟩ := key (c.topPeek + 1) c.bottomPeek (by omega) (by omega) (by omega)
      (by omega)
    obtain ⟨s1, e1, g1⟩ := scroll_in_range env st i Down c _ hc (hD c) k1 k2
    obtain ⟨k3, k4⟩ := key (c.topPeek + 1 - 1) (c.bottomPeek + 1) (by omega) (by omega)
      (by omega) (by omega)
    obtain ⟨s2, e2, g2⟩ := scroll_in_range env s1 i Up _ _ g1 (hU _) k3 k4
    refine ⟨s2, ?_, ?_⟩
    · simp only [scrolls, e1, e2, Res.bind]
    · rw [g2]
      have e : c.topPeek + 1 - 1 = c.topPeek := by omega
      simp only [e]

/-- Witness for C17, amended: the conflict at lines 10..12 of the sample file with
peeks 5 and 5 ends both pairs of scrolls with peeks 5 and 6. -/
theorem scroll_pair_restores_topPeek_witness :
    (∃ st2, scrolls sampleEnv (sampleState [sampleConflict 10 11 12 0 5 5] 0) 0 [Up, Down]
          = .ok st2 ∧ st2.conflicts[0]? = some (sampleConflict 10 11 12 0 5 6)) ∧
      ∃ st2, scrolls sampleEnv (sampleState [sampleConflict 10 11 12 0 5 5] 0) 0 [Down, Up]
          = .ok st2 ∧ st2.conflicts[0]? = some (sampleConflict 10 11 12 0 5 6) :=
  scroll_pair_restores_topPeek sampleEnv (sampleState [sampleConflict 10 11 12 0 5 5] 0) 0
    (sampleConflict 10 11 12 0 5 5) rfl (by decide) (by decide) (by decide) (by decide)
    (by decide) (by decide) (by decide)

/-! ## What in the result of `nextConflict` depends on `Choice` -/

theorem clamped_withChoice (env : Env) (c : Conflict) (x : Int) :
    ({ c with Choice := x } : Conflict).clamped env = { c.clamped env with Choice := x } := by
  unfold Conflict.clamped Conflict.clampBottom Conflict.clampTop
  simp only []
  split_ifs <;> rfl

/-- Every view other than the list view is rendered the same whatever the `Choice`
of the conflicts. -/
theorem renderState_view_choice (env : Env) (st st2 : State) (i : Nat) (c : Conflict)
    (x : Int) (h : Bool) (m : String) (hv : st2.views = st.views) (hm : m ≠ env.Panel) :
    (renderState env st2 i { c with Choice := x } h).view m
      = (renderState env st i c h).view m := by
  have hview : ∀ n, st2.view n = st.view n := fun n => by unfold State.view; rw [hv]
  rcases hP : st.view env.Panel with _ | vP <;>
  rcases hC : st.view env.Current with _ | vC <;>
  rcases hF : st.view env.Foreign with _ | vF
  all_goals
    have hP2 := (hview env.Panel).trans hP
    have hC2 := (hview env.Current).trans hC
    have hF2 := (hview env.Foreign).trans hF
    simp only [renderState, selectList, hP, hC, hF, hP2, hC2, hF2, view_modifyView,
      view_setConflict, Option.map, clamped_withChoice, hview m, if_neg hm]
    try (cases st.view m <;> rfl)

theorem renderState_conflicts_eq (env : Env) (st : State) (i : Nat) (c : Conflict) (h : Bool) :
    (renderState env st i c h).conflicts
      = (match st.view env.Current with
        | none => st.conflicts
        | some _ => st.conflicts.set i (c.clamped env)) := by
  rcases hP : st.view env.Panel with _ | vP <;>
  rcases hC : st.view env.Current with _ | vC <;>
  rcases hF : st.view env.Foreign with _ | vF
  all_goals
    simp only [renderState, selectList, hP, hC, hF, view_modifyView, view_setConflict,
      Option.map]
    try simp only [State.modifyView, State.setConflict, List.set_set]

theorem withChoices_set (l : List Conflict) (i : Nat) (a : Conflict) (f : Nat → Int) :
    (l.set i a).enum.map (fun p => ({ p.2 with Choice := f p.1 } : Conflict))
      = (l.enum.map (fun p => ({ p.2 with Choice := f p.1 } : Conflict))).set i
          { a with Choice := f i } := by
  apply List.ext_getElem?
  intro k
  simp only [List.getElem?_map, List.getElem?_enum, List.getElem?_set, Option.map_map,
    List.length_map, List.enum_length]
  by_cases hk : i = k
  · subst hk
    by_cases hl : i < l.length
    · simp [hl]
    · simp [hl]
  · simp [hk]

theorem renderState_conflicts_choice (env : Env) (st st2 : State) (i : Nat) (c : Conflict)
    (f : Nat → Int) (h : Bool) (hv : st2.views = st.views)
    (hcs : st2.conflicts = (st.withChoices f).conflicts) :
    (renderState env st2 i { c with Choice := f i } h).conflicts
      = ((renderState env st i c h).withChoices f).conflicts := by
  have hview : st2.view env.Current = st.view env.Current := by unfold State.view; rw [hv]
  have e : ((renderState env st i c h).withChoices f).conflicts
      = (renderState env st i c h).conflicts.enum.map
          (fun p => ({ p.2 with Choice := f p.1 } : Conflict)) := rfl
  rw [e, renderState_conflicts_eq, renderState_conflicts_eq, clamped_withChoice, hview, hcs]
  cases st.view env.Current with
  | none => rfl
  | some v => exact (withChoices_set st.conflicts _ _ f).symm

/-- C18, counterexample: one unresolved conflict with the cursor on it. Run on that
state and on the state in which its `Choice` is overwritten with 1, `nextConflict`
returns two states whose views differ: the row of the list panel shows the `Choice`. -/
theorem nextConflict_result_shows_choice :
    ¬ ∀ (env : Env) (fuel : Nat) (st : State) (f : Nat → Int) (st1 st2 : State),
        0 ≤ st.cur → st.cur < (st.conflicts.length : Int) →
        nextConflict env fuel st = .ok st1 →
        nextConflict env fuel (st.withChoices f) = .ok st2 →
        st2.cur = st1.cur ∧ st2.quits = st1.quits ∧ st2.views = st1.views := by
  intro h
  have h1 := h sampleEnv 0 (sampleState [sampleConflict 3 4 5 0 0 0] 0) (fun _ => 1) _ _
    (by decide) (by decide) rfl rfl
  exact absurd h1.2.2 (by decide)

/-- C18, amended. With a non-empty sequence and `0 ≤ cur < len(conflicts)`, the scan
loop of `nextConflict` finishes without a pass, so `nextConflict` is `globalQuit`
followed by `Select` on `conflicts[cur]` with `showHelp = false`; whenever it returns
the cursor is the one on entry and one quit signal has been sent, and it returns when
`conflicts[cur]` lies inside its file. Overwriting the `Choice` of every conflict
leaves the same call of `Select`, and in the state returned the same cursor, quit
signal and count, the same conflicts up to their `Choice`, and the same content of
every view other than the list view. -/
theorem nextConflict_zero_passes (env : Env) (fuel : Nat) (st : State) (f : Nat → Int)
    (h0 : 0 ≤ st.cur) (h1 : st.cur < (st.conflicts.length : Int)) :
    scanLoop 0 st.cur st.cur st.conflictCount = .ok st.cur ∧
      nextConflict env fuel st = Select env (globalQuit st) st.cur.toNat false ∧
      (∀ st1, nextConflict env fuel st = .ok st1 →
        st1.cur = st.cur ∧ st1.quits = st.quits + 1) ∧
      nextConflict env fuel (st.withChoices f)
        = Select env (globalQuit (st.withChoices f)) st.cur.toNat false ∧
      (∀ st2, nextConflict env fuel (st.withChoices f) = .ok st2 →
        st2.cur = st.cur ∧ st2.quits = st.quits + 1) ∧
      ∃ c, st.conflicts[st.cur.toNat]? = some c ∧
        (c.InFile env →
          ∃ st1 st2, nextConflict env fuel st = .ok st1 ∧
            nextConflict env fuel (st.withChoices f) = .ok st2 ∧
            st2.cur = st1.cur ∧ st2.quits = st1.quits ∧
            st2.conflictCount = st1.conflictCount ∧
            st2.conflicts = (st1.withChoices f).conflicts ∧
            ∀ m, m ≠ env.Panel → st2.view m = st1.view m) := by
  have hlt : st.cur.toNat < st.conflicts.length := by omega
  have hget : st.conflicts[st.cur.toNat]? = some st.conflicts[st.cur.toNat] :=
    List.getElem?_eq_getElem hlt
  have hget2 : (st.withChoices f).conflicts[(st.withChoices f).cur.toNat]?
      = some { st.conflicts[st.cur.toNat] with Choice := f st.cur.toNat } := by
    have e : (st.withChoices f).cur = st.cur := rfl
    rw [e, withChoices_getElem?, hget]
    rfl
  have heq : nextConflict env fuel st = Select env (globalQuit st) st.cur.toNat false := by
    rw [nextConflict_eq]
    unfold goIndex
    rw [if_pos h0, hget]
    rfl
  have heq2 : nextConflict env fuel (st.withChoices f)
      = Select env (globalQuit (st.withChoices f)) st.cur.toNat false := by
    rw [nextConflict_eq]
    unfold goIndex
    rw [if_pos (show 0 ≤ (st.withChoices f).cur from h0), hget2]
    rfl
  refine ⟨scanLoop_self 0 _ _, heq, ?_, heq2, ?_, _, hget, ?_⟩
  · intro st1 h
    obtain ⟨k1, _, _, k4⟩ := nextConflict_inv env fuel st st1 h
    exact ⟨k1, k4⟩
  · intro st2 h
    obtain ⟨k1, _, _, k4⟩ := nextConflict_inv env fuel _ st2 h
    exact ⟨k1, k4⟩
  · intro hin
    have hin2 : ({ st.conflicts[st.cur.toNat] with Choice := f st.cur.toNat } :
        Conflict).InFile env := hin
    obtain ⟨a1, a2, a3⟩ := nextConflict_ok env fuel st _ h0 hget hin
    obtain ⟨b1, b2, b3⟩ := nextConflict_ok env fuel (st.withChoices f) _ h0 hget2 hin2
    obtain ⟨_, a5, _, _⟩ := nextConflict_inv env fuel st _ a1
    obtain ⟨_, b5, _, _⟩ := nextConflict_inv env fuel _ _ b1
    refine ⟨_, _, a1, b1, ?_, ?_, ?_, ?_, ?_⟩
    · rw [b3, a3]; rfl
    · rw [b2, a2]; rfl
    · rw [b5, a5]; rfl
    · exact renderState_conflicts_choice env (globalQuit st) (globalQuit (st.withChoices f)) _ _
        f false rfl rfl
    · intro m hm
      exact renderState_view_choice env (globalQuit st) (globalQuit (st.withChoices f)) _ _ _
        false m rfl hm

/-- Witness for C18, amended: two conflicts of the sample file with the cursor on the
second; the choices `0, 0` are overwritten with `1, 2`. -/
theorem nextConflict_zero_passes_witness :
    (∃ st1, nextConflict sampleEnv 0
        (sampleState [sampleConflict 3 4 5 0 0 0, sampleConflict 10 11 12 0 0 0] 1) = .ok st1 ∧
        st1.cur = 1 ∧ st1.quits = 0 + 1) ∧
      (∃ st2, nextConflict sampleEnv 0
        ((sampleState [sampleConflict 3 4 5 0 0 0, sampleConflict 10 11 12 0 0 0] 1).withChoices
          (fun k => (k : Int) + 1)) = .ok st2 ∧ st2.cur = 1 ∧ st2.quits = 0 + 1) ∧
      ∃ st1 st2, nextConflict sampleEnv 0
          (sampleState [sampleConflict 3 4 5 0 0 0, sampleConflict 10 11 12 0 0 0] 1)
            = .ok st1 ∧
        nextConflict sampleEnv 0
          ((sampleState [sampleConflict 3 4 5 0 0 0,
            sampleConflict 10 11 12 0 0 0] 1).withChoices (fun k => (k : Int) + 1)) = .ok st2 ∧
        st2.view "current" = st1.view "current" ∧ st2.view "foreign" = st1.view "foreign" := by
  have w := nextConflict_zero_passes sampleEnv 0
    (sampleState [sampleConflict 3 4 5 0 0 0, sampleConflict 10 11 12 0 0 0] 1)
    (fun k => (k : Int) + 1) (by decide) (by decide)
  obtain ⟨c, hc, hs⟩ := w.2.2.2.2.2
  have hc2 : some (sampleConflict 10 11 12 0 0 0) = some c := hc
  simp only [Option.some.injEq] at hc2
  subst hc2
  obtain ⟨st1, st2, e1, e2, _, _, _, _, hv⟩ := hs (by decide)
  exact ⟨⟨_, rfl, w.2.2.1 _ rfl⟩, ⟨_, rfl, w.2.2.2.2.1 _ rfl⟩,
    ⟨st1, st2, e1, e2, hv "current" (by decide), hv "foreign" (by decide)⟩⟩

end Fac
